import Mathlib

/-!
# solarscape: a shallow embedding of `solarscape.c`

The C program keeps its whole state in globals: the camera scalars
(`totalX`, `totalY`, `totalZ`, `rotX`, `tilt`, `isTeapot`), the body array
`planetList` with its fill counter `planIndex`, and the star array `starList`.
Each callback is embedded as a function from state to state.

`GLfloat`/`double` values are embedded in an arbitrary linearly ordered field `α`
(exact arithmetic); concrete evaluations are carried out at `α = ℚ`, and the
trigonometric statements at `α = ℝ`.  The camera callbacks are embedded a second time,
as `keyboard32` and `arrowKeys32`, with the arithmetic the C evaluation performs: binary64
for the guards and the sums, binary32 for the stores.  The statements that depend on the
rounding of a store (how far a key moves the camera, which values it can reach) are made
on that second embedding.

C `int`/`GLint` values are `Int` (array indices and the loop counters are `Nat`).
`planetList` is a map on all naturals; `generatePlanetsInArray` is `generatePlanets` on the
array of `MAX_PLANETS` slots, where a store past the end is reported instead of performed.
OpenGL/GLUT drawing calls do not touch the embedded state and are left out.
-/

namespace Solarscape

/-! ## Constants (`#define`s of the source) -/

/-- The source has `#define ESC 27`. -/
def ESC : Char := Char.ofNat 27

/-- The source has `#define TRANS_AMT 0.2`: how much the camera moves per key press. -/
def TRANS_AMT {α : Type} [LinearOrderedField α] : α := 0.2

/-- The source has `#define MAX_DEPTH 25`: max depth the camera can go in any direction. -/
def MAX_DEPTH {α : Type} [LinearOrderedField α] : α := 25

/-- The source has `#define MAX_PLANETS 10`. -/
def MAX_PLANETS : Nat := 10

/-- The source has `#define MAX_STARS 1000`. -/
def MAX_STARS : Nat := 1000

/-- The source has `#define SPIN_SPEED 10.0`. -/
def SPIN_SPEED {α : Type} [LinearOrderedField α] : α := 10.0

/-- The source has `#define STAR_DEPTH 25`. -/
def STAR_DEPTH : Int := 25

/-- The source has `#define PI 3.1415926` (a decimal constant, not the real number π). -/
def PI {α : Type} [LinearOrderedField α] : α := 3.1415926

/-- Special-key code of GLUT's header for the left arrow (`glut.h`, an external library header). -/
def GLUT_KEY_LEFT : Int := 100

/-- Special-key code of GLUT's header for the up arrow. -/
def GLUT_KEY_UP : Int := 101

/-- Special-key code of GLUT's header for the right arrow. -/
def GLUT_KEY_RIGHT : Int := 102

/-- Special-key code of GLUT's header for the down arrow. -/
def GLUT_KEY_DOWN : Int := 103

/-! ## Generic loop -/

/-- The C loop `for (int i = 0; i < n; i++) body(i)` as a state transformer. -/
def forLoop {σ : Type} (n : Nat) (body : Nat → σ → σ) (s : σ) : σ :=
  (List.range n).foldl (fun acc i => body i acc) s

/-! ## Camera state and key handlers -/

/-- The camera globals `totalX`, `totalY`, `totalZ`, `rotX`, `tilt` and the mode flag `isTeapot`. -/
structure Camera (α : Type) where
  totalX : α
  totalY : α
  totalZ : α
  rotX : α
  tilt : α
  isTeapot : Int

/-- The initial values of the camera globals. -/
def initCamera {α : Type} [LinearOrderedField α] : Camera α :=
  { totalX := 0, totalY := 0, totalZ := -15, rotX := 0, tilt := 0, isTeapot := 0 }

/-- The ASCII-key callback `keyboard(key, x, y)`; `none` is `exit(0)` on `ESC`.
The mouse coordinates `x`, `y` are unused by the source. -/
def keyboard {α : Type} [LinearOrderedField α] (key : Char) (c : Camera α) :
    Option (Camera α) :=
  if key = 'x' then
    if c.totalY - TRANS_AMT > -MAX_DEPTH then
      some { c with totalY := c.totalY - TRANS_AMT }
    else some c
  else if key = 'c' then
    if c.totalY + TRANS_AMT < MAX_DEPTH then
      some { c with totalY := c.totalY + TRANS_AMT }
    else some c
  else if key = 'r' then
    some { c with rotX := c.rotX - TRANS_AMT }
  else if key = 't' then
    some { c with rotX := c.rotX + TRANS_AMT }
  else if key = 's' then
    some { c with tilt := c.tilt - TRANS_AMT }
  else if key = 'd' then
    some { c with tilt := c.tilt + TRANS_AMT }
  else if key = 'p' then
    if c.isTeapot ≠ 0 then
      some { c with isTeapot := 0 }
    else
      some { c with isTeapot := 1 }
  else if key = ESC then
    none
  else
    some c

/-- The special-key callback `arrowKeys(key, x, y)`. -/
def arrowKeys {α : Type} [LinearOrderedField α] (key : Int) (c : Camera α) : Camera α :=
  if key = GLUT_KEY_LEFT then
    if c.totalX + TRANS_AMT < MAX_DEPTH then
      let c1 := { c with totalX := c.totalX + TRANS_AMT }
      { c1 with rotX := c1.totalX }
    else c
  else if key = GLUT_KEY_RIGHT then
    if c.totalX - TRANS_AMT > -MAX_DEPTH then
      let c1 := { c with totalX := c.totalX - TRANS_AMT }
      { c1 with rotX := c1.totalX }
    else c
  else if key = GLUT_KEY_DOWN then
    if c.totalZ - TRANS_AMT > -MAX_DEPTH then
      { c with totalZ := c.totalZ - TRANS_AMT }
    else c
  else if key = GLUT_KEY_UP then
    if c.totalZ + TRANS_AMT < MAX_DEPTH then
      { c with totalZ := c.totalZ + TRANS_AMT }
    else c
  else c

/-- A key event delivered by the host loop: an ASCII key (to `keyboard`) or a
special key (to `arrowKeys`). -/
inductive KeyEvent where
  | ascii (key : Char)
  | special (key : Int)
  deriving DecidableEq

/-- Dispatch of one key event to its registered callback; `none` when the process exits. -/
def handleKey {α : Type} [LinearOrderedField α] (e : KeyEvent) (c : Camera α) :
    Option (Camera α) :=
  match e with
  | KeyEvent.ascii k => keyboard k c
  | KeyEvent.special k => some (arrowKeys k c)

/-- A finite sequence of key events handled in order; `none` once the process has exited. -/
def handleKeys {α : Type} [LinearOrderedField α] : List KeyEvent → Camera α → Option (Camera α)
  | [], c => some c
  | e :: es, c =>
    match handleKey e c with
    | some c1 => handleKeys es c1
    | none => none

/-- The C `struct planet`. -/
structure planet (α : Type) where
  r : α
  g : α
  b : α
  x : α
  y : α
  z : α
  scale : α
  hostNum : Int
  depth : Int
  dist : α
  spin : α
  rotate : α

/-- A zero-initialised `struct planet` (the array is a C global). -/
def planet.zero {α : Type} [LinearOrderedField α] : planet α :=
  { r := 0, g := 0, b := 0, x := 0, y := 0, z := 0, scale := 0,
    hostNum := 0, depth := 0, dist := 0, spin := 0, rotate := 0 }

/-- The globals `planetList` and `planIndex`.  The array is indexed by all naturals;
the C array has the slots `0 .. MAX_PLANETS - 1`. -/
structure Scene (α : Type) where
  planetList : Nat → planet α
  planIndex : Nat

/-- The state of `planetList`/`planIndex` at program start. -/
def initScene {α : Type} [LinearOrderedField α] : Scene α :=
  { planetList := fun _ => planet.zero, planIndex := 0 }

/-- The assignment `planetList[i] = p`. -/
def Scene.set {α : Type} (st : Scene α) (i : Nat) (p : planet α) : Scene α :=
  { st with planetList := Function.update st.planetList i p }

/-- The state-changing part of `dispPlanet(i)`: the position of a hosted body is
recomputed from its host.  `cos`/`sin` are the C library functions. -/
def dispPlanet {α : Type} [LinearOrderedField α] (cos sin : α → α) (i : Nat)
    (st : Scene α) : Scene α :=
  let hosti : Int := (st.planetList i).hostNum
  if hosti ≥ 0 then
    let st1 := st.set i { st.planetList i with
      x := (st.planetList hosti.toNat).x
        + ((st.planetList i).dist * cos ((st.planetList i).rotate * (2.0 * PI) / 360)) }
    st1.set i { st1.planetList i with
      z := (st1.planetList hosti.toNat).z
        + ((st1.planetList i).dist * sin ((st1.planetList i).rotate * (2.0 * PI) / 360)) }
  else st

/-- The body loop of `display()`: `for (i = 0; i < planIndex; i++) dispPlanet(i)`. -/
def display {α : Type} [LinearOrderedField α] (cos sin : α → α) (st : Scene α) : Scene α :=
  forLoop st.planIndex (dispPlanet cos sin) st

/-- The statements of one iteration of the loop of `spin()`, acting on the one array
element `planetList[i]` they read and write.  (`1 / dist` with `dist = 0` is `0` in a field
and infinite in C; no hosted body of the built hierarchy has `dist = 0`.) -/
def spinPlanet {α : Type} [LinearOrderedField α] (p : planet α) : planet α :=
  let p := { p with spin := p.spin + SPIN_SPEED }
  let p := if p.spin > 360.0 then { p with spin := p.spin - 360.0 } else p
  let p :=
    if p.hostNum ≥ 0 then { p with rotate := p.rotate + SPIN_SPEED * (1 / p.dist) }
    else { p with rotate := p.rotate + SPIN_SPEED }
  let p := if p.hostNum > 0 then { p with rotate := p.rotate + SPIN_SPEED * (p.depth : α) } else p
  if p.rotate > 360.0 then { p with rotate := p.rotate - 360.0 } else p

/-- One iteration of the loop of `spin()`, for body `i`. -/
def spinBody {α : Type} [LinearOrderedField α] (i : Nat) (st : Scene α) : Scene α :=
  st.set i (spinPlanet (st.planetList i))

/-- The idle callback `spin()`: the loop over `i < planIndex` (no iteration changes
`planIndex`). -/
def spin {α : Type} [LinearOrderedField α] (st : Scene α) : Scene α :=
  forLoop st.planIndex spinBody st

/-- The function `generatePlanets()`. -/
def generatePlanets {α : Type} [LinearOrderedField α] (st : Scene α) : Scene α :=
  let p := st.planIndex
  let st := st.set p { st.planetList p with
    r := 1.0, g := 1.0, b := 0.8, scale := 2, hostNum := -1, depth := 0 }
  let st := { st with planIndex := st.planIndex + 1 }
  let p := st.planIndex
  let st := st.set p { st.planetList p with
    r := 0.0, g := 1.0, b := 0.5, scale := 1, hostNum := 0, dist := 4.5 }
  let st := st.set p { st.planetList p with
    depth := (st.planetList (st.planetList p).hostNum.toNat).depth + 1 }
  let st := { st with planIndex := st.planIndex + 1 }
  let p := st.planIndex
  let st := st.set p { st.planetList p with
    r := 0.8, g := 0.2, b := 0.2, scale := 0.5, hostNum := 1, dist := 2 }
  let st := st.set p { st.planetList p with
    depth := (st.planetList (st.planetList p).hostNum.toNat).depth + 1 }
  let st := { st with planIndex := st.planIndex + 1 }
  let p := st.planIndex
  let st := st.set p { st.planetList p with
    r := 0.8, g := 0.6, b := 0.0, scale := 1.4, hostNum := 0, dist := 8.5 }
  let st := st.set p { st.planetList p with
    depth := (st.planetList (st.planetList p).hostNum.toNat).depth + 1 }
  { st with planIndex := st.planIndex + 1 }

/-- The body state after `init()` has called `generatePlanets()` once. -/
def builtScene {α : Type} [LinearOrderedField α] : Scene α :=
  generatePlanets initScene

/-- The state after `n` idle ticks: `spin()` called `n` times. -/
def spinN {α : Type} [LinearOrderedField α] : Nat → Scene α → Scene α
  | 0, st => st
  | n + 1, st => spin (spinN n st)

/-- One step of the animation loop acting on the bodies: an idle tick (`spin()`), a full
render pass (`display()`), or a single call `dispPlanet(i)`. -/
inductive SceneOp where
  | tick
  | render
  | renderOne (i : Nat)

/-- The effect of one step on the body state. -/
def SceneOp.apply {α : Type} [LinearOrderedField α] (cos sin : α → α) :
    SceneOp → Scene α → Scene α
  | SceneOp.tick, st => spin st
  | SceneOp.render, st => display cos sin st
  | SceneOp.renderOne i, st => dispPlanet cos sin i st

/-- An interleaving of ticks and render passes, executed in order. -/
def runOps {α : Type} [LinearOrderedField α] (cos sin : α → α) :
    List SceneOp → Scene α → Scene α
  | [], st => st
  | op :: ops, st => runOps cos sin ops (op.apply cos sin st)

/-! ## Stars -/

/-- The C `struct star`. -/
structure star (α : Type) where
  x : α
  y : α
  z : α

/-- The body of the loop of `generateStars()` for index `i`, given the four values
`r1 .. r4` returned by its four calls of `rand()`: the star stored in `starList[i]`. -/
def mkStar {α : Type} [LinearOrderedField α] (i : Nat) (r1 r2 r3 r4 : Nat) : star α :=
  let sign1 : Int := (r1 : Int) % 2
  let sign2 : Int := (r2 : Int) % 2
  let num1 : Int := (r3 : Int) % STAR_DEPTH
  let num2 : Int := (r4 : Int) % STAR_DEPTH
  let num1 : Int := if sign1 = 0 then 0 - num1 else num1
  let num2 : Int := if sign2 = 0 then 0 - num2 else num2
  if (i : α) > 5 / 6.0 * (MAX_STARS : α) then
    { x := (num1 : α), y := (num2 : α), z := (STAR_DEPTH : α) }
  else if (i : α) > 4 / 6.0 * (MAX_STARS : α) then
    { x := (num1 : α), y := (num2 : α), z := ((-STAR_DEPTH : Int) : α) }
  else if (i : α) > 3 / 6.0 * (MAX_STARS : α) then
    { x := (num1 : α), y := (STAR_DEPTH : α), z := (num2 : α) }
  else if (i : α) > 2 / 6.0 * (MAX_STARS : α) then
    { x := (num1 : α), y := ((-STAR_DEPTH : Int) : α), z := (num2 : α) }
  else if (i : α) > 1 / 6.0 * (MAX_STARS : α) then
    { x := (STAR_DEPTH : α), y := (num1 : α), z := (num2 : α) }
  else
    { x := ((-STAR_DEPTH : Int) : α), y := (num1 : α), z := (num2 : α) }

/-- The global `starList` together with the number of calls of `rand()` made so far. -/
structure StarGen (α : Type) where
  starList : Nat → star α
  calls : Nat

/-- The state at program start: a zero-initialised `starList`, no call of `rand()` yet. -/
def initStars {α : Type} [LinearOrderedField α] : StarGen α :=
  { starList := fun _ => { x := 0, y := 0, z := 0 }, calls := 0 }

/-- One iteration of the loop of `generateStars()`.  `rnd k` is the value returned by the
`k`-th call of `rand()` (a non-negative integer). -/
def starBody {α : Type} [LinearOrderedField α] (rnd : Nat → Nat) (i : Nat)
    (g : StarGen α) : StarGen α :=
  { starList := Function.update g.starList i
      (mkStar i (rnd g.calls) (rnd (g.calls + 1)) (rnd (g.calls + 2)) (rnd (g.calls + 3))),
    calls := g.calls + 4 }

/-- The function `generateStars()`. -/
def generateStars {α : Type} [LinearOrderedField α] (rnd : Nat → Nat) (g : StarGen α) :
    StarGen α :=
  forLoop MAX_STARS (starBody rnd) g

/-- A coordinate that is an integer of absolute value strictly less than `STAR_DEPTH`. -/
def smallInt {α : Type} [LinearOrderedField α] (v : α) : Prop :=
  ∃ k : Int, v = (k : α) ∧ |k| < STAR_DEPTH

/-- Exactly one of `|x|`, `|y|`, `|z|` equals `STAR_DEPTH` and the other two coordinates are
integers of absolute value strictly less than `STAR_DEPTH`. -/
def star.onShell {α : Type} [LinearOrderedField α] (s : star α) : Prop :=
  (|s.x| = (STAR_DEPTH : α) ∧ smallInt s.y ∧ smallInt s.z ∧
      |s.y| ≠ (STAR_DEPTH : α) ∧ |s.z| ≠ (STAR_DEPTH : α)) ∨
  (|s.y| = (STAR_DEPTH : α) ∧ smallInt s.x ∧ smallInt s.z ∧
      |s.x| ≠ (STAR_DEPTH : α) ∧ |s.z| ≠ (STAR_DEPTH : α)) ∨
  (|s.z| = (STAR_DEPTH : α) ∧ smallInt s.x ∧ smallInt s.y ∧
      |s.x| ≠ (STAR_DEPTH : α) ∧ |s.y| ≠ (STAR_DEPTH : α))

/-- The number of list indices whose star satisfies `P`. -/
def starCount {α : Type} (l : Nat → star α) (P : star α → Prop) [DecidablePred P] : Nat :=
  ((Finset.range MAX_STARS).filter (fun i => P (l i))).card

/-! ## Predicates used in the statements -/

/-- The single conditional subtraction `if (a > 360.0) a -= 360.0` of `spin()`. -/
def wrap360 {α : Type} [LinearOrderedField α] (a : α) : α :=
  if a > 360.0 then a - 360.0 else a

/-- The amount `spin()` adds to `rotate` of a body before the conditional subtraction. -/
def rotateStep {α : Type} [LinearOrderedField α] (p : planet α) : α :=
  (if p.hostNum ≥ 0 then SPIN_SPEED * (1 / p.dist) else SPIN_SPEED)
    + (if p.hostNum > 0 then SPIN_SPEED * (p.depth : α) else 0)

/-- Every body in use has both angles in the half-open interval `[0, 360)`. -/
def Scene.anglesHalfOpen {α : Type} [LinearOrderedField α] (st : Scene α) : Prop :=
  ∀ i, i < st.planIndex →
    (0 ≤ (st.planetList i).spin ∧ (st.planetList i).spin < 360) ∧
    (0 ≤ (st.planetList i).rotate ∧ (st.planetList i).rotate < 360)

/-- Every body in use has both angles in the closed interval `[0, 360]`. -/
def Scene.anglesClosed {α : Type} [LinearOrderedField α] (st : Scene α) : Prop :=
  ∀ i, i < st.planIndex →
    (0 ≤ (st.planetList i).spin ∧ (st.planetList i).spin ≤ 360) ∧
    (0 ≤ (st.planetList i).rotate ∧ (st.planetList i).rotate ≤ 360)

/-- Two values of one body agree on every field other than the angles `spin` and `rotate`. -/
def planet.fixedEq {α : Type} (p q : planet α) : Prop :=
  p.r = q.r ∧ p.g = q.g ∧ p.b = q.b ∧ p.x = q.x ∧ p.y = q.y ∧ p.z = q.z ∧
  p.scale = q.scale ∧ p.hostNum = q.hostNum ∧ p.depth = q.depth ∧ p.dist = q.dist

/-- Two values of one body agree on every field other than the position components `x`
and `z`. -/
def planet.placedEq {α : Type} (p q : planet α) : Prop :=
  p.r = q.r ∧ p.g = q.g ∧ p.b = q.b ∧ p.y = q.y ∧ p.scale = q.scale ∧
  p.hostNum = q.hostNum ∧ p.depth = q.depth ∧ p.dist = q.dist ∧ p.spin = q.spin ∧
  p.rotate = q.rotate

/-- The host relation of the bodies in use is well formed: every `hostNum` is `-1` or the
index of an earlier body, and `depth` is 0 for a root and the host's depth plus one
otherwise. -/
def Scene.wellFormed {α : Type} (s : Scene α) : Prop :=
  ∀ i, i < s.planIndex →
    ((s.planetList i).hostNum = -1 ∨
      (0 ≤ (s.planetList i).hostNum ∧ (s.planetList i).hostNum < (i : Int))) ∧
    (s.planetList i).depth =
      if (s.planetList i).hostNum = -1 then 0
      else (s.planetList (s.planetList i).hostNum.toNat).depth + 1

/-- The per-tick orbit increment as the claim words it: `SPIN_SPEED` for a body without host,
otherwise `SPIN_SPEED / dist` plus an extra `SPIN_SPEED * depth` exactly when the body's host
is itself a hosted (non-root) body. -/
def specRotateStep {α : Type} [LinearOrderedField α] (st : Scene α) (i : Nat) : α :=
  if (st.planetList i).hostNum = -1 then SPIN_SPEED
  else
    SPIN_SPEED / (st.planetList i).dist
      + (if (st.planetList (st.planetList i).hostNum.toNat).hostNum ≠ -1 then
          SPIN_SPEED * ((st.planetList i).depth : α)
        else 0)

/-- Every body in use has both angles in the half-open interval `(0, 360]`. -/
def Scene.anglesOpenClosed {α : Type} [LinearOrderedField α] (st : Scene α) : Prop :=
  ∀ i, i < st.planIndex →
    (0 < (st.planetList i).spin ∧ (st.planetList i).spin ≤ 360) ∧
    (0 < (st.planetList i).rotate ∧ (st.planetList i).rotate ≤ 360)

/-- The six faces of the cube of half-width `STAR_DEPTH`. -/
inductive Face where
  | negX
  | posX
  | negY
  | posY
  | negZ
  | posZ
  deriving DecidableEq

/-- The faces a star lies on, read off its stored coordinates: a coordinate equal to
`-STAR_DEPTH` or `STAR_DEPTH` puts the star on the corresponding face. -/
def star.faces {α : Type} [LinearOrderedField α] (s : star α) : List Face :=
  (if s.x = ((-STAR_DEPTH : Int) : α) then [Face.negX] else []) ++
  (if s.x = ((STAR_DEPTH : Int) : α) then [Face.posX] else []) ++
  (if s.y = ((-STAR_DEPTH : Int) : α) then [Face.negY] else []) ++
  (if s.y = ((STAR_DEPTH : Int) : α) then [Face.posY] else []) ++
  (if s.z = ((-STAR_DEPTH : Int) : α) then [Face.negZ] else []) ++
  (if s.z = ((STAR_DEPTH : Int) : α) then [Face.posZ] else [])

/-! ## Binary floating point

`GLfloat` is IEEE 754 binary32 and `double` is binary64.  A finite value of either format is
a rational number; the two functions below are the roundings the C evaluation applies. -/

/-- Rounding of a rational to the nearest integer, ties to even. -/
def roundNE (y : ℚ) : ℤ :=
  if y - ⌊y⌋ < 1 / 2 then ⌊y⌋
  else if 1 / 2 < y - ⌊y⌋ then ⌊y⌋ + 1
  else if ⌊y⌋ % 2 = 0 then ⌊y⌋
  else ⌊y⌋ + 1

/-- The exponent of the unit in the last place at `x`, in the binary format with `p`
significand bits whose smallest positive (subnormal) value is `2 ^ emin`. -/
def ulpExp (p : Nat) (emin : Int) (x : ℚ) : Int :=
  max (Int.log 2 |x| - ((p : Int) - 1)) emin

/-- IEEE 754 round-to-nearest, ties-to-even, into the binary format with `p` significand
bits and smallest subnormal `2 ^ emin`.  Overflow to infinity is not modelled. -/
def roundTo (p : Nat) (emin : Int) (x : ℚ) : ℚ :=
  (roundNE (x / 2 ^ ulpExp p emin x) : ℚ) * 2 ^ ulpExp p emin x

/-- Rounding to binary32, the format of `GLfloat`. -/
@[irreducible]
def f32 (x : ℚ) : ℚ := roundTo 24 (-149) x

/-- Rounding to binary64, the format of `double`. -/
@[irreducible]
def f64 (x : ℚ) : ℚ := roundTo 53 (-1074) x

/-- The `double` denoted by the literal `0.2` of `#define TRANS_AMT 0.2`. -/
def TRANS_AMT64 : ℚ := f64 0.2

/-- The callback `keyboard(key, x, y)` with the arithmetic of the C evaluation: a camera
field is a `GLfloat`, `TRANS_AMT` is a `double`, so `f OP= TRANS_AMT` computes
`(double) f ± TRANS_AMT` in binary64 and stores its rounding to binary32, and a guard
compares the binary64 value with `±MAX_DEPTH`.  The fields of the camera hold finite
`GLfloat` values, as they do in every state the program reaches.  `none` is `exit(0)` on
`ESC`. -/
def keyboard32 (key : Char) (c : Camera ℚ) : Option (Camera ℚ) :=
  if key = 'x' then
    if f64 (c.totalY - TRANS_AMT64) > -MAX_DEPTH then
      some { c with totalY := f32 (f64 (c.totalY - TRANS_AMT64)) }
    else some c
  else if key = 'c' then
    if f64 (c.totalY + TRANS_AMT64) < MAX_DEPTH then
      some { c with totalY := f32 (f64 (c.totalY + TRANS_AMT64)) }
    else some c
  else if key = 'r' then
    some { c with rotX := f32 (f64 (c.rotX - TRANS_AMT64)) }
  else if key = 't' then
    some { c with rotX := f32 (f64 (c.rotX + TRANS_AMT64)) }
  else if key = 's' then
    some { c with tilt := f32 (f64 (c.tilt - TRANS_AMT64)) }
  else if key = 'd' then
    some { c with tilt := f32 (f64 (c.tilt + TRANS_AMT64)) }
  else if key = 'p' then
    if c.isTeapot ≠ 0 then
      some { c with isTeapot := 0 }
    else
      some { c with isTeapot := 1 }
  else if key = ESC then
    none
  else
    some c

/-- The callback `arrowKeys(key, x, y)` with the arithmetic of the C evaluation (see
`keyboard32`). -/
def arrowKeys32 (key : Int) (c : Camera ℚ) : Camera ℚ :=
  if key = GLUT_KEY_LEFT then
    if f64 (c.totalX + TRANS_AMT64) < MAX_DEPTH then
      let c1 := { c with totalX := f32 (f64 (c.totalX + TRANS_AMT64)) }
      { c1 with rotX := c1.totalX }
    else c
  else if key = GLUT_KEY_RIGHT then
    if f64 (c.totalX - TRANS_AMT64) > -MAX_DEPTH then
      let c1 := { c with totalX := f32 (f64 (c.totalX - TRANS_AMT64)) }
      { c1 with rotX := c1.totalX }
    else c
  else if key = GLUT_KEY_DOWN then
    if f64 (c.totalZ - TRANS_AMT64) > -MAX_DEPTH then
      { c with totalZ := f32 (f64 (c.totalZ - TRANS_AMT64)) }
    else c
  else if key = GLUT_KEY_UP then
    if f64 (c.totalZ + TRANS_AMT64) < MAX_DEPTH then
      { c with totalZ := f32 (f64 (c.totalZ + TRANS_AMT64)) }
    else c
  else c

/-- Dispatch of one key event to its callback, in the arithmetic of the C evaluation. -/
def handleKey32 (e : KeyEvent) (c : Camera ℚ) : Option (Camera ℚ) :=
  match e with
  | KeyEvent.ascii k => keyboard32 k c
  | KeyEvent.special k => some (arrowKeys32 k c)

/-- A finite sequence of key events handled in order, in the arithmetic of the C evaluation;
`none` once the process has exited. -/
def handleKeys32 : List KeyEvent → Camera ℚ → Option (Camera ℚ)
  | [], c => some c
  | e :: es, c =>
    match handleKey32 e c with
    | some c1 => handleKeys32 es c1
    | none => none

/-- All three translation components lie in the closed interval
`[-MAX_DEPTH, MAX_DEPTH]`. -/
def Camera.inClosedBounds {α : Type} [LinearOrderedField α] (c : Camera α) : Prop :=
  (-MAX_DEPTH ≤ c.totalX ∧ c.totalX ≤ MAX_DEPTH) ∧
  (-MAX_DEPTH ≤ c.totalY ∧ c.totalY ≤ MAX_DEPTH) ∧
  (-MAX_DEPTH ≤ c.totalZ ∧ c.totalZ ≤ MAX_DEPTH)

/-- The yaw target lies in `[-2^22, 2^22]`, the range in which adding `TRANS_AMT` to a
`GLfloat` can still change it. -/
def Camera.yawInRange (c : Camera ℚ) : Prop :=
  -4194304 ≤ c.rotX ∧ c.rotX ≤ 4194304

/-- A store `planetList[index] = ...` with `index ≥ MAX_PLANETS`: it lies outside the array
`struct planet planetList[MAX_PLANETS]`, which is undefined behaviour in C. -/
inductive StoreFault where
  | outOfBounds (index : Nat)
  deriving DecidableEq

/-- The assignment `planetList[i] = p` into the array of `MAX_PLANETS` slots: a store outside
the array is reported as such and nothing is said about the state after it. -/
def Scene.store {α : Type} (st : Scene α) (i : Nat) (p : planet α) :
    Except StoreFault (Scene α) :=
  if i < MAX_PLANETS then Except.ok (st.set i p)
  else Except.error (StoreFault.outOfBounds i)

/-- Body `i` is stored as the satellite of body `h` at radius `d` and orbit angle `rot`: its
link, radius and angle fields say so, its position is the host's stored position plus `d`
times the cosine and sine of the angle (degrees converted with the constant `PI`), so it
lies on the circle of radius `d` around the host in the host's plane `y = y_h`. -/
def Scene.placedOnOrbit {α : Type} [LinearOrderedField α] (cos sin : α → α) (s : Scene α)
    (i h : Nat) (d rot : α) : Prop :=
  (s.planetList i).hostNum = (h : Int) ∧
  (s.planetList i).dist = d ∧
  (s.planetList i).rotate = rot ∧
  (s.planetList i).x = (s.planetList h).x + d * cos (rot * (2.0 * PI) / 360) ∧
  (s.planetList i).z = (s.planetList h).z + d * sin (rot * (2.0 * PI) / 360) ∧
  (s.planetList i).y = (s.planetList h).y ∧
  ((s.planetList i).x - (s.planetList h).x) ^ 2
    + ((s.planetList i).z - (s.planetList h).z) ^ 2 = d ^ 2

/-! ## Loop and update lemmas -/

theorem forLoop_zero {σ : Type} (body : Nat → σ → σ) (s : σ) : forLoop 0 body s = s := rfl

theorem forLoop_succ {σ : Type} (n : Nat) (body : Nat → σ → σ) (s : σ) :
    forLoop (n + 1) body s = body n (forLoop n body s) := by
  simp [forLoop, List.range_succ, List.foldl_append]

theorem set_planetList {α : Type} (st : Scene α) (i j : Nat) (p : planet α) :
    (st.set i p).planetList j = if j = i then p else st.planetList j := by
  by_cases h : j = i
  · subst h; simp [Scene.set]
  · simp [Scene.set, Function.update, h]

theorem set_planIndex {α : Type} (st : Scene α) (i : Nat) (p : planet α) :
    (st.set i p).planIndex = st.planIndex := rfl

/-- A loop whose `i`-th iteration rewrites slot `i` by `f` rewrites exactly the slots below
the bound. -/
theorem forLoop_slotwise {α : Type} (f : planet α → planet α) (n : Nat) (st : Scene α) :
    (forLoop n (fun i s => s.set i (f (s.planetList i))) st).planIndex = st.planIndex ∧
    ∀ j, (forLoop n (fun i s => s.set i (f (s.planetList i))) st).planetList j
      = if j < n then f (st.planetList j) else st.planetList j := by
  induction n with
  | zero => simp [forLoop_zero]
  | succ n ih =>
    rw [forLoop_succ]
    refine ⟨by rw [set_planIndex]; exact ih.1, fun j => ?_⟩
    rw [set_planetList, ih.2 n, ih.2 j]
    by_cases h : j = n
    · subst h; simp
    · by_cases h2 : j < n
      · simp [h, h2, Nat.lt_succ_of_lt h2]
      · have : ¬ j < n + 1 := by omega
        simp [h, h2, this]

theorem spin_planIndex {α : Type} [LinearOrderedField α] (st : Scene α) :
    (spin st).planIndex = st.planIndex :=
  (forLoop_slotwise spinPlanet st.planIndex st).1

theorem spin_planetList {α : Type} [LinearOrderedField α] (st : Scene α) (j : Nat) :
    (spin st).planetList j
      = if j < st.planIndex then spinPlanet (st.planetList j) else st.planetList j :=
  (forLoop_slotwise spinPlanet st.planIndex st).2 j

/-- One loop iteration of `spin()` rewrites only the two angle fields, each by an addition
followed by the conditional subtraction. -/
theorem spinPlanet_eq {α : Type} [LinearOrderedField α] (p : planet α) :
    spinPlanet p = { p with spin := wrap360 (p.spin + SPIN_SPEED),
                            rotate := wrap360 (p.rotate + rotateStep p) } := by
  unfold spinPlanet wrap360 rotateStep
  simp only
  split_ifs <;> simp_all [add_assoc] <;> exact absurd (by assumption) (not_lt.mpr (by assumption))

theorem wrap360_bounds {α : Type} [LinearOrderedField α] (a d : α)
    (ha : 0 ≤ a ∧ a ≤ 360) (hd : 0 ≤ d ∧ d ≤ 360) :
    0 ≤ wrap360 (a + d) ∧ wrap360 (a + d) ≤ 360 := by
  unfold wrap360
  have e : (360.0 : α) = 360 := by norm_num
  rw [e]
  split_ifs with h
  · constructor <;> linarith [ha.1, ha.2, hd.1, hd.2]
  · exact ⟨by linarith [ha.1, hd.1], not_lt.mp h⟩

/-! ## The hierarchy built by `generatePlanets` -/

theorem builtScene_planIndex {α : Type} [LinearOrderedField α] :
    (builtScene : Scene α).planIndex = 4 := rfl

theorem builtScene_body0 {α : Type} [LinearOrderedField α] :
    (builtScene : Scene α).planetList 0
      = { planet.zero with
          r := 1.0, g := 1.0, b := 0.8, scale := 2, hostNum := -1, depth := 0 } := by
  simp [builtScene, generatePlanets, Scene.set, initScene, Function.update]

theorem builtScene_body1 {α : Type} [LinearOrderedField α] :
    (builtScene : Scene α).planetList 1
      = { planet.zero with
          r := 0.0, g := 1.0, b := 0.5, scale := 1, hostNum := 0, dist := 4.5, depth := 1 } := by
  simp [builtScene, generatePlanets, Scene.set, initScene, Function.update]

theorem builtScene_body2 {α : Type} [LinearOrderedField α] :
    (builtScene : Scene α).planetList 2
      = { planet.zero with
          r := 0.8, g := 0.2, b := 0.2, scale := 0.5, hostNum := 1, dist := 2, depth := 2 } := by
  simp [builtScene, generatePlanets, Scene.set, initScene, Function.update]

theorem builtScene_body3 {α : Type} [LinearOrderedField α] :
    (builtScene : Scene α).planetList 3
      = { planet.zero with
          r := 0.8, g := 0.6, b := 0.0, scale := 1.4, hostNum := 0, dist := 8.5, depth := 1 } := by
  simp [builtScene, generatePlanets, Scene.set, initScene, Function.update]

/-! ## Idle ticks -/

theorem fixedEq_refl {α : Type} (p : planet α) : p.fixedEq p := by
  simp [planet.fixedEq]

theorem fixedEq_trans {α : Type} {p q r : planet α} (h1 : p.fixedEq q) (h2 : q.fixedEq r) :
    p.fixedEq r := by
  unfold planet.fixedEq at *
  obtain ⟨a1, a2, a3, a4, a5, a6, a7, a8, a9, a10⟩ := h1
  obtain ⟨b1, b2, b3, b4, b5, b6, b7, b8, b9, b10⟩ := h2
  exact ⟨a1.trans b1, a2.trans b2, a3.trans b3, a4.trans b4, a5.trans b5, a6.trans b6,
    a7.trans b7, a8.trans b8, a9.trans b9, a10.trans b10⟩

theorem spinPlanet_fixedEq {α : Type} [LinearOrderedField α] (p : planet α) :
    p.fixedEq (spinPlanet p) := by
  rw [spinPlanet_eq]
  simp [planet.fixedEq]

theorem spinPlanet_spin {α : Type} [LinearOrderedField α] (p : planet α) :
    (spinPlanet p).spin = wrap360 (p.spin + SPIN_SPEED) := by
  rw [spinPlanet_eq]

theorem spinPlanet_rotate {α : Type} [LinearOrderedField α] (p : planet α) :
    (spinPlanet p).rotate = wrap360 (p.rotate + rotateStep p) := by
  rw [spinPlanet_eq]

theorem rotateStep_congr {α : Type} [LinearOrderedField α] {p q : planet α}
    (h : p.fixedEq q) : rotateStep p = rotateStep q := by
  obtain ⟨-, -, -, -, -, -, -, h8, h9, h10⟩ := h
  simp [rotateStep, h8, h9, h10]

theorem spin_fixedEq {α : Type} [LinearOrderedField α] (st : Scene α) (j : Nat) :
    (st.planetList j).fixedEq ((spin st).planetList j) := by
  rw [spin_planetList]
  split_ifs
  · exact spinPlanet_fixedEq _
  · exact fixedEq_refl _

theorem spinN_planIndex {α : Type} [LinearOrderedField α] (n : Nat) (st : Scene α) :
    (spinN n st).planIndex = st.planIndex := by
  induction n with
  | zero => rfl
  | succ n ih => rw [spinN, spin_planIndex, ih]

theorem spinN_fixedEq {α : Type} [LinearOrderedField α] (n : Nat) (st : Scene α) (j : Nat) :
    (st.planetList j).fixedEq ((spinN n st).planetList j) := by
  induction n with
  | zero => exact fixedEq_refl _
  | succ n ih => exact fixedEq_trans ih (spin_fixedEq _ j)

theorem builtScene_rotateStep_bounds {α : Type} [LinearOrderedField α] (i : Nat) (hi : i < 4) :
    0 ≤ rotateStep ((builtScene : Scene α).planetList i) ∧
    rotateStep ((builtScene : Scene α).planetList i) ≤ 360 := by
  interval_cases i
  · rw [builtScene_body0]; norm_num [rotateStep, SPIN_SPEED, planet.zero]
  · rw [builtScene_body1]; norm_num [rotateStep, SPIN_SPEED, planet.zero]
  · rw [builtScene_body2]; norm_num [rotateStep, SPIN_SPEED, planet.zero]
  · rw [builtScene_body3]; norm_num [rotateStep, SPIN_SPEED, planet.zero]

theorem builtScene_angles_zero {α : Type} [LinearOrderedField α] (i : Nat) (hi : i < 4) :
    ((builtScene : Scene α).planetList i).spin = 0 ∧
    ((builtScene : Scene α).planetList i).rotate = 0 := by
  interval_cases i
  · rw [builtScene_body0]; simp [planet.zero]
  · rw [builtScene_body1]; simp [planet.zero]
  · rw [builtScene_body2]; simp [planet.zero]
  · rw [builtScene_body3]; simp [planet.zero]

/-- The closed-interval invariant is kept by every tick on the built hierarchy. -/
theorem spinN_builtScene_anglesClosed {α : Type} [LinearOrderedField α] (n : Nat) :
    (spinN n (builtScene : Scene α)).anglesClosed := by
  induction n with
  | zero =>
    intro i hi
    have h := @builtScene_angles_zero α _ i hi
    simp [spinN, h.1, h.2]
  | succ n ih =>
    intro i hi
    rw [spinN_planIndex] at hi
    have hi4 : i < 4 := hi
    have hi2 : i < (spinN n (builtScene : Scene α)).planIndex := by
      rw [spinN_planIndex]; exact hi
    have hs : (spinN (n + 1) (builtScene : Scene α)).planetList i
        = spinPlanet ((spinN n builtScene).planetList i) := by
      rw [spinN, spin_planetList, if_pos hi2]
    rw [hs, spinPlanet_spin, spinPlanet_rotate,
      ← rotateStep_congr (spinN_fixedEq n builtScene i)]
    exact ⟨wrap360_bounds _ _ (ih i hi2).1 (by norm_num [SPIN_SPEED]),
      wrap360_bounds _ _ (ih i hi2).2 (builtScene_rotateStep_bounds i hi4)⟩

theorem root_spin_linear {α : Type} [LinearOrderedField α] (n : Nat) (hn : n ≤ 36) :
    ((spinN n (builtScene : Scene α)).planetList 0).spin = 10 * (n : α) := by
  induction n with
  | zero => simp [spinN, (@builtScene_angles_zero α _ 0 (by norm_num)).1]
  | succ n ih =>
    have h0 : 0 < (spinN n (builtScene : Scene α)).planIndex := by
      rw [spinN_planIndex]; exact Nat.succ_pos 3
    rw [spinN, spin_planetList, if_pos h0, spinPlanet_spin, ih (Nat.le_of_succ_le hn)]
    have hle : ((n : α) + 1) ≤ 36 := by exact_mod_cast hn
    have hnot : ¬ (10 * (n : α) + SPIN_SPEED > 360.0) := by
      norm_num [SPIN_SPEED]; linarith
    rw [wrap360, if_neg hnot]
    norm_num [SPIN_SPEED]; ring

/-! ## Claims about the idle tick -/

/-- C1 (refuted as stated): after 36 ticks from the built hierarchy the root's spin angle is
exactly 360, which is outside the half-open interval `[0, 360)`. -/
theorem spin_angles_not_half_open :
    ¬ (∀ n : Nat, (spinN n (builtScene : Scene ℚ)).anglesHalfOpen) := by
  intro h
  have h36 := (h 36 0 (by rw [spinN_planIndex]; exact Nat.succ_pos 3)).1.2
  rw [root_spin_linear 36 (le_refl 36)] at h36
  norm_num at h36

/-- C1 (amended): starting from the state built by `generatePlanets`, after any number `n ≥ 0`
of calls to `spin()`, every body's spin angle and rotate angle lies in the closed interval
`[0, 360]`. -/
theorem spin_angles_closed_interval {α : Type} [LinearOrderedField α] (n : Nat) :
    (spinN n (builtScene : Scene α)).anglesClosed :=
  spinN_builtScene_anglesClosed n

/-- C2 (refuted as stated): the hierarchy has exactly 4 bodies, and after 36 ticks the root's
spin angle is not 0. -/
theorem root_spin_not_zero_after_36_ticks :
    (builtScene : Scene ℚ).planIndex = 4 ∧
    ((spinN 36 (builtScene : Scene ℚ)).planetList 0).spin ≠ 0 := by
  refine ⟨rfl, ?_⟩
  rw [root_spin_linear 36 (le_refl 36)]
  norm_num

/-- C2 (amended): `generatePlanets` creates exactly the 4 bodies of the fixed hierarchy, and 36
consecutive calls to `spin()` with `SPIN_SPEED = 10` leave the root body's spin angle equal
to 360 (a full turn, stored as 360 and not as 0). -/
theorem root_spin_after_36_ticks {α : Type} [LinearOrderedField α] :
    (builtScene : Scene α).planIndex = 4 ∧
    (SPIN_SPEED : α) = 10 ∧
    ((spinN 36 (builtScene : Scene α)).planetList 0).spin = 360 := by
  refine ⟨rfl, by norm_num [SPIN_SPEED], ?_⟩
  rw [root_spin_linear 36 (le_refl 36)]
  norm_num

/-! ## Camera -/

/-- C4 (refuted as stated): at `totalX = 24.9`, `rotX = 0` the left-arrow move is rejected by
its guard and `rotX` is not snapped, so after the event `rotX = 0` differs from
`totalX = 24.9`. -/
theorem strafe_rejected_keeps_rotX :
    (arrowKeys GLUT_KEY_LEFT ({ initCamera with totalX := 24.9 } : Camera ℚ)).rotX
      ≠ (arrowKeys GLUT_KEY_LEFT ({ initCamera with totalX := 24.9 } : Camera ℚ)).totalX := by
  norm_num [arrowKeys, GLUT_KEY_LEFT, TRANS_AMT, MAX_DEPTH, initCamera]

/-- C4 (amended): for every camera state and each of the two strafe keys, when the guard of the
key accepts the move, `rotX` equals the resulting `totalX` immediately after `arrowKeys()`
handles the event; when the guard rejects the move the camera is left as it was. -/
theorem strafe_snaps_rotX_when_accepted {α : Type} [LinearOrderedField α] (c : Camera α) :
    (c.totalX + TRANS_AMT < MAX_DEPTH →
      (arrowKeys GLUT_KEY_LEFT c).totalX = c.totalX + TRANS_AMT ∧
      (arrowKeys GLUT_KEY_LEFT c).rotX = (arrowKeys GLUT_KEY_LEFT c).totalX) ∧
    (c.totalX - TRANS_AMT > -MAX_DEPTH →
      (arrowKeys GLUT_KEY_RIGHT c).totalX = c.totalX - TRANS_AMT ∧
      (arrowKeys GLUT_KEY_RIGHT c).rotX = (arrowKeys GLUT_KEY_RIGHT c).totalX) ∧
    (¬ c.totalX + TRANS_AMT < MAX_DEPTH → arrowKeys GLUT_KEY_LEFT c = c) ∧
    (¬ c.totalX - TRANS_AMT > -MAX_DEPTH → arrowKeys GLUT_KEY_RIGHT c = c) := by
  refine ⟨fun h => ?_, fun h => ?_, fun h => ?_, fun h => ?_⟩
  · simp [arrowKeys, h]
  · have hne : GLUT_KEY_RIGHT ≠ GLUT_KEY_LEFT := by decide
    simp [arrowKeys, hne, h]
  · simp [arrowKeys, h]
  · have hne : GLUT_KEY_RIGHT ≠ GLUT_KEY_LEFT := by decide
    simp [arrowKeys, hne, h]

/-- C4 (amended) at the initial camera after one yaw key `t` (so that `rotX = 0.2` differs
from `totalX = 0`): the accepted left-arrow move snaps `rotX` to the new `totalX`. -/
theorem strafe_snaps_rotX_when_accepted_witness :
    ({ initCamera with rotX := 0.2 } : Camera ℚ).totalX + TRANS_AMT < MAX_DEPTH ∧
    (arrowKeys GLUT_KEY_LEFT ({ initCamera with rotX := 0.2 } : Camera ℚ)).totalX
      = ({ initCamera with rotX := 0.2 } : Camera ℚ).totalX + TRANS_AMT ∧
    (arrowKeys GLUT_KEY_LEFT ({ initCamera with rotX := 0.2 } : Camera ℚ)).rotX
      = (arrowKeys GLUT_KEY_LEFT ({ initCamera with rotX := 0.2 } : Camera ℚ)).totalX :=
  ⟨by norm_num [initCamera, TRANS_AMT, MAX_DEPTH],
   (strafe_snaps_rotX_when_accepted _).1 (by norm_num [initCamera, TRANS_AMT, MAX_DEPTH])⟩

/-- C5 (refuted as stated): at `totalX = MAX_DEPTH - 0.1 = 24.9` the right-arrow key is
accepted (its guard is `totalX - TRANS_AMT > -MAX_DEPTH`) and moves `totalX` to 24.7. -/
theorem strafe_right_near_upper_bound_moves :
    (arrowKeys GLUT_KEY_RIGHT ({ initCamera with totalX := MAX_DEPTH - 0.1 } : Camera ℚ)).totalX
      = 24.7 ∧
    (arrowKeys GLUT_KEY_RIGHT ({ initCamera with totalX := MAX_DEPTH - 0.1 } : Camera ℚ)).totalX
      ≠ ({ initCamera with totalX := MAX_DEPTH - 0.1 } : Camera ℚ).totalX := by
  norm_num [arrowKeys, GLUT_KEY_LEFT, GLUT_KEY_RIGHT, TRANS_AMT, MAX_DEPTH, initCamera]

/-- C5 (amended): with `TRANS_AMT = 0.2` and `totalX = MAX_DEPTH - 0.1`, handling the left-arrow
key (the strafe key that adds `TRANS_AMT` to `totalX`) in `arrowKeys()` leaves the whole
camera, and so `totalX`, unchanged: the clamp rejects the move.  The right-arrow key
subtracts `TRANS_AMT` and is accepted there. -/
theorem strafe_left_near_upper_bound_rejected {α : Type} [LinearOrderedField α]
    (c : Camera α) :
    (TRANS_AMT : α) = 0.2 ∧
    arrowKeys GLUT_KEY_LEFT { c with totalX := MAX_DEPTH - 0.1 }
      = { c with totalX := MAX_DEPTH - 0.1 } ∧
    (arrowKeys GLUT_KEY_RIGHT { c with totalX := MAX_DEPTH - 0.1 }).totalX
      = MAX_DEPTH - 0.1 - TRANS_AMT := by
  refine ⟨rfl, ?_, ?_⟩
  · have h : ¬ ((MAX_DEPTH : α) - 0.1 + TRANS_AMT < MAX_DEPTH) := by
      norm_num [TRANS_AMT, MAX_DEPTH]
    simp only [arrowKeys, if_true, if_neg h]
  · have hne : GLUT_KEY_RIGHT ≠ GLUT_KEY_LEFT := by decide
    have h : (MAX_DEPTH : α) - 0.1 - TRANS_AMT > -MAX_DEPTH := by
      norm_num [TRANS_AMT, MAX_DEPTH]
    simp only [arrowKeys, if_neg hne, if_true, if_pos h]

/-! ## Render pass -/

theorem dispPlanet_eq {α : Type} [LinearOrderedField α] (cos sin : α → α) (i : Nat)
    (st : Scene α) :
    dispPlanet cos sin i st =
      if (st.planetList i).hostNum ≥ 0 then
        st.set i { st.planetList i with
          x := (st.planetList (st.planetList i).hostNum.toNat).x
            + ((st.planetList i).dist * cos ((st.planetList i).rotate * (2.0 * PI) / 360))
          z := (st.planetList (st.planetList i).hostNum.toNat).z
            + ((st.planetList i).dist * sin ((st.planetList i).rotate * (2.0 * PI) / 360)) }
      else st := by
  unfold dispPlanet
  simp only
  split_ifs with h
  · by_cases hh : (st.planetList i).hostNum.toNat = i
    · simp [Scene.set, hh]
    · simp [Scene.set, Function.update, hh]
  · rfl

theorem dispPlanet_planIndex {α : Type} [LinearOrderedField α] (cos sin : α → α) (i : Nat)
    (st : Scene α) : (dispPlanet cos sin i st).planIndex = st.planIndex := by
  rw [dispPlanet_eq]
  split_ifs <;> rfl

theorem dispPlanet_other {α : Type} [LinearOrderedField α] (cos sin : α → α) (i j : Nat)
    (st : Scene α) (h : j ≠ i) :
    (dispPlanet cos sin i st).planetList j = st.planetList j := by
  rw [dispPlanet_eq]
  split_ifs
  · rw [set_planetList, if_neg h]
  · rfl

theorem dispPlanet_root {α : Type} [LinearOrderedField α] (cos sin : α → α) (i j : Nat)
    (st : Scene α) (h : (st.planetList j).hostNum < 0) :
    (dispPlanet cos sin i st).planetList j = st.planetList j := by
  by_cases hij : j = i
  · subst hij
    rw [dispPlanet_eq, if_neg (not_le.mpr h)]
  · exact dispPlanet_other cos sin i j st hij

theorem display_root {α : Type} [LinearOrderedField α] (cos sin : α → α) (j : Nat)
    (st : Scene α) (h : (st.planetList j).hostNum < 0) :
    (display cos sin st).planetList j = st.planetList j := by
  unfold display
  generalize st.planIndex = n
  induction n with
  | zero => rfl
  | succ n ih =>
    rw [forLoop_succ, dispPlanet_root cos sin n j _ (by rw [ih]; exact h), ih]

theorem apply_root_fixedEq {α : Type} [LinearOrderedField α] (cos sin : α → α) (op : SceneOp)
    (j : Nat) (st : Scene α) (h : (st.planetList j).hostNum < 0) :
    (st.planetList j).fixedEq ((op.apply cos sin st).planetList j) := by
  cases op with
  | tick => exact spin_fixedEq st j
  | render =>
    show (st.planetList j).fixedEq ((display cos sin st).planetList j)
    rw [display_root cos sin j st h]; exact fixedEq_refl _
  | renderOne i =>
    show (st.planetList j).fixedEq ((dispPlanet cos sin i st).planetList j)
    rw [dispPlanet_root cos sin i j st h]; exact fixedEq_refl _

theorem runOps_root_fixedEq {α : Type} [LinearOrderedField α] (cos sin : α → α)
    (ops : List SceneOp) (j : Nat) :
    ∀ st : Scene α, (st.planetList j).hostNum < 0 →
      (st.planetList j).fixedEq ((runOps cos sin ops st).planetList j) := by
  induction ops with
  | nil => intro st _; exact fixedEq_refl _
  | cons op ops ih =>
    intro st h
    have h1 := apply_root_fixedEq cos sin op j st h
    have h2 : ((op.apply cos sin st).planetList j).hostNum < 0 := by
      rw [← h1.2.2.2.2.2.2.2.1]; exact h
    exact fixedEq_trans h1 (ih _ h2)

/-- C7: for every body with `hostNum == -1`, after any interleaving of any number of `spin()`
ticks and `display()`/`dispPlanet()` render passes, its stored position `(x, y, z)` and every
other field except `spin` and `rotate` is what it was before. -/
theorem root_bodies_stationary {α : Type} [LinearOrderedField α] (cos sin : α → α)
    (ops : List SceneOp) (st : Scene α) (j : Nat) (h : (st.planetList j).hostNum = -1) :
    ((runOps cos sin ops st).planetList j).x = (st.planetList j).x ∧
    ((runOps cos sin ops st).planetList j).y = (st.planetList j).y ∧
    ((runOps cos sin ops st).planetList j).z = (st.planetList j).z ∧
    (st.planetList j).fixedEq ((runOps cos sin ops st).planetList j) := by
  have hf := runOps_root_fixedEq cos sin ops j st (by rw [h]; decide)
  exact ⟨hf.2.2.2.1.symm, hf.2.2.2.2.1.symm, hf.2.2.2.2.2.1.symm, hf⟩

/-- C7 at the root of the built hierarchy, for tick, render pass, tick, `dispPlanet(0)`,
render pass, over the reals with the real cosine and sine. -/
theorem root_bodies_stationary_witness :
    ((builtScene : Scene ℝ).planetList 0).hostNum = -1 ∧
    (((runOps Real.cos Real.sin [SceneOp.tick, SceneOp.render, SceneOp.tick,
        SceneOp.renderOne 0, SceneOp.render] (builtScene : Scene ℝ)).planetList 0).x
        = ((builtScene : Scene ℝ).planetList 0).x ∧
     ((runOps Real.cos Real.sin [SceneOp.tick, SceneOp.render, SceneOp.tick,
        SceneOp.renderOne 0, SceneOp.render] (builtScene : Scene ℝ)).planetList 0).y
        = ((builtScene : Scene ℝ).planetList 0).y ∧
     ((runOps Real.cos Real.sin [SceneOp.tick, SceneOp.render, SceneOp.tick,
        SceneOp.renderOne 0, SceneOp.render] (builtScene : Scene ℝ)).planetList 0).z
        = ((builtScene : Scene ℝ).planetList 0).z ∧
     ((builtScene : Scene ℝ).planetList 0).fixedEq
       ((runOps Real.cos Real.sin [SceneOp.tick, SceneOp.render, SceneOp.tick,
        SceneOp.renderOne 0, SceneOp.render] (builtScene : Scene ℝ)).planetList 0)) :=
  ⟨by rw [builtScene_body0],
   root_bodies_stationary Real.cos Real.sin _ builtScene 0 (by rw [builtScene_body0])⟩

theorem placedEq_refl {α : Type} (p : planet α) : p.placedEq p := by
  simp [planet.placedEq]

theorem placedEq_trans {α : Type} {p q r : planet α} (h1 : p.placedEq q) (h2 : q.placedEq r) :
    p.placedEq r := by
  unfold planet.placedEq at *
  obtain ⟨a1, a2, a3, a4, a5, a6, a7, a8, a9, a10⟩ := h1
  obtain ⟨b1, b2, b3, b4, b5, b6, b7, b8, b9, b10⟩ := h2
  exact ⟨a1.trans b1, a2.trans b2, a3.trans b3, a4.trans b4, a5.trans b5, a6.trans b6,
    a7.trans b7, a8.trans b8, a9.trans b9, a10.trans b10⟩

theorem dispPlanet_placedEq {α : Type} [LinearOrderedField α] (cos sin : α → α) (i j : Nat)
    (st : Scene α) : (st.planetList j).placedEq ((dispPlanet cos sin i st).planetList j) := by
  by_cases hij : j = i
  · subst hij
    rw [dispPlanet_eq]
    split_ifs
    · rw [set_planetList, if_pos rfl]; simp [planet.placedEq]
    · exact placedEq_refl _
  · rw [dispPlanet_other cos sin i j st hij]; exact placedEq_refl _

theorem dispPlanet_self {α : Type} [LinearOrderedField α] (cos sin : α → α) (i : Nat)
    (st : Scene α) (h : 0 ≤ (st.planetList i).hostNum) :
    ((dispPlanet cos sin i st).planetList i).x
      = (st.planetList (st.planetList i).hostNum.toNat).x
        + (st.planetList i).dist * cos ((st.planetList i).rotate * (2.0 * PI) / 360) ∧
    ((dispPlanet cos sin i st).planetList i).z
      = (st.planetList (st.planetList i).hostNum.toNat).z
        + (st.planetList i).dist * sin ((st.planetList i).rotate * (2.0 * PI) / 360) := by
  rw [dispPlanet_eq, if_pos h, set_planetList, if_pos rfl]
  exact ⟨rfl, rfl⟩

theorem forLoop_dispPlanet_planIndex {α : Type} [LinearOrderedField α] (cos sin : α → α)
    (st : Scene α) (k : Nat) :
    (forLoop k (dispPlanet cos sin) st).planIndex = st.planIndex := by
  induction k with
  | zero => rfl
  | succ n ih => rw [forLoop_succ, dispPlanet_planIndex, ih]

theorem display_planIndex {α : Type} [LinearOrderedField α] (cos sin : α → α)
    (st : Scene α) : (display cos sin st).planIndex = st.planIndex :=
  forLoop_dispPlanet_planIndex cos sin st st.planIndex

theorem display_placedEq {α : Type} [LinearOrderedField α] (cos sin : α → α)
    (st : Scene α) (j : Nat) :
    (st.planetList j).placedEq ((display cos sin st).planetList j) := by
  unfold display
  generalize st.planIndex = n
  induction n with
  | zero => exact placedEq_refl _
  | succ n ih =>
    rw [forLoop_succ]
    exact placedEq_trans ih (dispPlanet_placedEq cos sin n j _)

theorem builtScene_hosts {α : Type} [LinearOrderedField α] (i : Nat) (hi : i < 4) :
    ((builtScene : Scene α).planetList i).hostNum < (i : Int) ∧
    ((builtScene : Scene α).planetList i).y = 0 := by
  interval_cases i
  · rw [builtScene_body0]; simp [planet.zero]
  · rw [builtScene_body1]; simp [planet.zero]
  · rw [builtScene_body2]; simp [planet.zero]
  · rw [builtScene_body3]; simp [planet.zero]

/-! ## Hierarchy -/

theorem generatePlanets_planIndex {α : Type} [LinearOrderedField α] (st : Scene α) :
    (generatePlanets st).planIndex = st.planIndex + 4 := rfl

theorem generatePlanets_links {α : Type} [LinearOrderedField α] (st : Scene α)
    (h : st.planIndex = 0) :
    (List.range 4).map (fun i => ((generatePlanets st).planetList i).hostNum) = [-1, 0, 1, 0] ∧
    (List.range 4).map (fun i => ((generatePlanets st).planetList i).depth) = [0, 1, 2, 1] := by
  obtain ⟨pl, pi⟩ := st
  simp only at h
  subst h
  simp [generatePlanets, Scene.set, Function.update, List.range_succ]

/-- C10: starting from `planIndex = 0`, `generatePlanets` produces exactly 4 bodies
(`planIndex = 4 ≤ MAX_PLANETS`); every `hostNum_i` is `-1` or satisfies `0 ≤ hostNum_i < i`,
`depth_i` is 0 when `hostNum_i = -1` and `depth_{hostNum_i} + 1` otherwise; concretely
`hostNum = [-1, 0, 1, 0]` and `depth = [0, 1, 2, 1]`. -/
theorem hierarchy_well_formed {α : Type} [LinearOrderedField α] (st : Scene α)
    (h : st.planIndex = 0) :
    (generatePlanets st).planIndex = 4 ∧
    (generatePlanets st).planIndex ≤ MAX_PLANETS ∧
    (generatePlanets st).wellFormed ∧
    (List.range 4).map (fun i => ((generatePlanets st).planetList i).hostNum) = [-1, 0, 1, 0] ∧
    (List.range 4).map (fun i => ((generatePlanets st).planetList i).depth) = [0, 1, 2, 1] := by
  have hl := generatePlanets_links st h
  have hp : (generatePlanets st).planIndex = 4 := by rw [generatePlanets_planIndex, h]
  refine ⟨hp, by rw [hp]; decide, ?_, hl.1, hl.2⟩
  obtain ⟨hh, hd⟩ := hl
  simp only [List.range_succ, List.range_zero, List.nil_append, List.cons_append, List.map_cons,
    List.map_nil, List.cons.injEq, and_true] at hh hd
  obtain ⟨hh0, hh1, hh2, hh3⟩ := hh
  obtain ⟨hd0, hd1, hd2, hd3⟩ := hd
  intro i hi
  rw [hp] at hi
  interval_cases i
  · rw [hh0, hd0]; simp
  · rw [hh1, hd1]; simp [hd0]
  · rw [hh2, hd2]; simp [hd1]
  · rw [hh3, hd3]; simp [hd0]

/-- C10 at the state the program starts in. -/
theorem hierarchy_well_formed_witness :
    (initScene : Scene ℚ).planIndex = 0 ∧
    ((generatePlanets (initScene : Scene ℚ)).planIndex = 4 ∧
     (generatePlanets (initScene : Scene ℚ)).planIndex ≤ MAX_PLANETS ∧
     (generatePlanets (initScene : Scene ℚ)).wellFormed ∧
     (List.range 4).map (fun i => ((generatePlanets (initScene : Scene ℚ)).planetList i).hostNum)
       = [-1, 0, 1, 0] ∧
     (List.range 4).map (fun i => ((generatePlanets (initScene : Scene ℚ)).planetList i).depth)
       = [0, 1, 2, 1]) :=
  ⟨rfl, hierarchy_well_formed initScene rfl⟩

/-! ## Star field -/

theorem star_thresholds {α : Type} [LinearOrderedField α] (i : Nat) :
    ((i : α) > 5 / 6.0 * (MAX_STARS : α) ↔ 834 ≤ i) ∧
    ((i : α) > 4 / 6.0 * (MAX_STARS : α) ↔ 667 ≤ i) ∧
    ((i : α) > 3 / 6.0 * (MAX_STARS : α) ↔ 501 ≤ i) ∧
    ((i : α) > 2 / 6.0 * (MAX_STARS : α) ↔ 334 ≤ i) ∧
    ((i : α) > 1 / 6.0 * (MAX_STARS : α) ↔ 167 ≤ i) := by
  have conv : ∀ c : Nat, (((c : Nat) : α) / 6 < (i : α)) ↔ c < 6 * i := by
    intro c
    rw [div_lt_iff₀ (by norm_num : (0 : α) < 6)]
    constructor
    · intro h
      have h2 : ((c : Nat) : α) < ((6 * i : Nat) : α) := by push_cast; linarith
      exact_mod_cast h2
    · intro h
      have h2 : ((c : Nat) : α) < ((6 * i : Nat) : α) := by exact_mod_cast h
      push_cast at h2; linarith
  have v5 : 5 / 6.0 * (MAX_STARS : α) = ((5000 : Nat) : α) / 6 := by norm_num [MAX_STARS]
  have v4 : 4 / 6.0 * (MAX_STARS : α) = ((4000 : Nat) : α) / 6 := by norm_num [MAX_STARS]
  have v3 : 3 / 6.0 * (MAX_STARS : α) = ((3000 : Nat) : α) / 6 := by norm_num [MAX_STARS]
  have v2 : 2 / 6.0 * (MAX_STARS : α) = ((2000 : Nat) : α) / 6 := by norm_num [MAX_STARS]
  have v1 : 1 / 6.0 * (MAX_STARS : α) = ((1000 : Nat) : α) / 6 := by norm_num [MAX_STARS]
  rw [gt_iff_lt, gt_iff_lt, gt_iff_lt, gt_iff_lt, gt_iff_lt, v5, v4, v3, v2, v1,
    conv, conv, conv, conv, conv]
  refine ⟨?_, ?_, ?_, ?_, ?_⟩ <;> omega

/-- The signed magnitude drawn for a free coordinate has absolute value below `STAR_DEPTH`. -/
theorem signed_draw_small (s r : Nat) :
    |(if (s : Int) % 2 = 0 then 0 - (r : Int) % STAR_DEPTH else (r : Int) % STAR_DEPTH)|
      < STAR_DEPTH := by
  rw [abs_lt]
  unfold STAR_DEPTH
  split_ifs <;> constructor <;> omega

/-- The star written at index `i`, by index band. -/
theorem mkStar_bands {α : Type} [LinearOrderedField α] (i r1 r2 r3 r4 : Nat) :
    ∃ n1 n2 : Int, |n1| < STAR_DEPTH ∧ |n2| < STAR_DEPTH ∧
      (mkStar i r1 r2 r3 r4 : star α) =
        if 834 ≤ i then { x := (n1 : α), y := (n2 : α), z := 25 }
        else if 667 ≤ i then { x := (n1 : α), y := (n2 : α), z := -25 }
        else if 501 ≤ i then { x := (n1 : α), y := 25, z := (n2 : α) }
        else if 334 ≤ i then { x := (n1 : α), y := -25, z := (n2 : α) }
        else if 167 ≤ i then { x := 25, y := (n1 : α), z := (n2 : α) }
        else { x := -25, y := (n1 : α), z := (n2 : α) } := by
  obtain ⟨t5, t4, t3, t2, t1⟩ := @star_thresholds α _ i
  refine ⟨_, _, signed_draw_small r1 r3, signed_draw_small r2 r4, ?_⟩
  unfold mkStar
  simp only [t5, t4, t3, t2, t1]
  have eD : ((STAR_DEPTH : Int) : α) = 25 := by norm_num [STAR_DEPTH]
  have eN : (((-STAR_DEPTH : Int)) : α) = -25 := by norm_num [STAR_DEPTH]
  rw [eD, eN]

/-- Loop invariant of `generateStars()`: after `k` iterations, `4 * k` values have been drawn,
the slots below `k` hold the stars made from their four draws, the others are untouched. -/
theorem forLoop_starBody {α : Type} [LinearOrderedField α] (rnd : Nat → Nat) (g : StarGen α)
    (k : Nat) :
    (forLoop k (starBody rnd) g).calls = g.calls + 4 * k ∧
    ∀ i, (forLoop k (starBody rnd) g).starList i =
      if i < k then
        mkStar i (rnd (g.calls + 4 * i)) (rnd (g.calls + 4 * i + 1))
          (rnd (g.calls + 4 * i + 2)) (rnd (g.calls + 4 * i + 3))
      else g.starList i := by
  induction k with
  | zero => exact ⟨rfl, fun i => by simp [forLoop_zero]⟩
  | succ k ih =>
    obtain ⟨ihc, ihl⟩ := ih
    rw [forLoop_succ]
    refine ⟨?_, fun i => ?_⟩
    · simp only [starBody, ihc]; omega
    · simp only [starBody, ihc]
      by_cases hik : i = k
      · subst hik; simp
      · rw [Function.update_noteq hik, ihl i]
        by_cases h2 : i < k
        · rw [if_pos h2, if_pos (by omega)]
        · rw [if_neg h2, if_neg (by omega)]

theorem generateStars_starList {α : Type} [LinearOrderedField α] (rnd : Nat → Nat) (i : Nat)
    (hi : i < MAX_STARS) :
    (generateStars rnd (initStars : StarGen α)).starList i =
      mkStar i (rnd (4 * i)) (rnd (4 * i + 1)) (rnd (4 * i + 2)) (rnd (4 * i + 3)) := by
  unfold generateStars
  rw [(forLoop_starBody rnd (initStars : StarGen α) MAX_STARS).2 i, if_pos hi]
  simp [initStars]

theorem smallInt_intCast {α : Type} [LinearOrderedField α] (n : Int) (h : |n| < STAR_DEPTH) :
    smallInt (n : α) ∧ |(n : α)| ≠ (STAR_DEPTH : α) := by
  refine ⟨⟨n, rfl, h⟩, ?_⟩
  intro he
  have h2 : ((|n| : Int) : α) = ((STAR_DEPTH : Int) : α) := by
    rw [Int.cast_abs]; exact he
  have h3 : |n| = STAR_DEPTH := by exact_mod_cast h2
  omega

theorem mkStar_onShell {α : Type} [LinearOrderedField α] (i r1 r2 r3 r4 : Nat) :
    (mkStar i r1 r2 r3 r4 : star α).onShell := by
  obtain ⟨n1, n2, h1, h2, he⟩ := @mkStar_bands α _ i r1 r2 r3 r4
  obtain ⟨s1, a1⟩ := @smallInt_intCast α _ n1 h1
  obtain ⟨s2, a2⟩ := @smallInt_intCast α _ n2 h2
  have eD : ((STAR_DEPTH : Int) : α) = 25 := by norm_num [STAR_DEPTH]
  have p25 : |(25 : α)| = 25 := abs_of_pos (by norm_num)
  have m25 : |(-25 : α)| = 25 := by rw [abs_neg]; exact p25
  rw [he]
  unfold star.onShell
  rw [eD] at a1 a2 ⊢
  split_ifs
  · exact Or.inr (Or.inr ⟨p25, s1, s2, a1, a2⟩)
  · exact Or.inr (Or.inr ⟨m25, s1, s2, a1, a2⟩)
  · exact Or.inr (Or.inl ⟨p25, s1, s2, a1, a2⟩)
  · exact Or.inr (Or.inl ⟨m25, s1, s2, a1, a2⟩)
  · exact Or.inl ⟨p25, s1, s2, a1, a2⟩
  · exact Or.inl ⟨m25, s1, s2, a1, a2⟩

/-- C8: for every sequence `rnd` of values returned by the random source and every index
`i` in `[0, MAX_STARS)`, the star written by `generateStars` at index `i` has exactly one of
`|x|`, `|y|`, `|z|` equal to `STAR_DEPTH = 25`; the other two coordinates are integers of
absolute value strictly less than `STAR_DEPTH`. -/
theorem stars_on_cube_shell {α : Type} [LinearOrderedField α] (rnd : Nat → Nat) (i : Nat)
    (hi : i < MAX_STARS) :
    ((generateStars rnd (initStars : StarGen α)).starList i).onShell ∧ STAR_DEPTH = 25 := by
  rw [generateStars_starList rnd i hi]
  exact ⟨mkStar_onShell i _ _ _ _, rfl⟩

/-- C8 at index 500 for the random sequence `7 k + 3`. -/
theorem stars_on_cube_shell_witness :
    500 < MAX_STARS ∧
    (((generateStars (fun k => 7 * k + 3) (initStars : StarGen ℚ)).starList 500).onShell ∧
      STAR_DEPTH = 25) :=
  ⟨by decide, stars_on_cube_shell (fun k => 7 * k + 3) 500 (by decide)⟩

/-- The face a generated star lies on, read off its coordinates, by index band. -/
theorem generateStars_bands {α : Type} [LinearOrderedField α] (rnd : Nat → Nat) (i : Nat)
    (hi : i < MAX_STARS) :
    (((generateStars rnd (initStars : StarGen α)).starList i).z = 25 ↔ 834 ≤ i) ∧
    (((generateStars rnd (initStars : StarGen α)).starList i).z = -25 ↔ 667 ≤ i ∧ i < 834) ∧
    (((generateStars rnd (initStars : StarGen α)).starList i).y = 25 ↔ 501 ≤ i ∧ i < 667) ∧
    (((generateStars rnd (initStars : StarGen α)).starList i).y = -25 ↔ 334 ≤ i ∧ i < 501) ∧
    (((generateStars rnd (initStars : StarGen α)).starList i).x = 25 ↔ 167 ≤ i ∧ i < 334) ∧
    (((generateStars rnd (initStars : StarGen α)).starList i).x = -25 ↔ i < 167) := by
  rw [generateStars_starList rnd i hi]
  obtain ⟨n1, n2, h1, h2, he⟩ :=
    @mkStar_bands α _ i (rnd (4 * i)) (rnd (4 * i + 1)) (rnd (4 * i + 2)) (rnd (4 * i + 3))
  rw [he]
  have small : ∀ n : Int, |n| < STAR_DEPTH → (n : α) ≠ 25 ∧ (n : α) ≠ -25 := by
    intro n hn
    rw [abs_lt] at hn
    unfold STAR_DEPTH at hn
    constructor
    · intro h
      have : n = 25 := by exact_mod_cast h
      omega
    · intro h
      have : n = -25 := by exact_mod_cast h
      omega
  obtain ⟨a1, b1⟩ := small n1 h1
  obtain ⟨a2, b2⟩ := small n2 h2
  have c1 : (25 : α) ≠ -25 := by norm_num
  have c2 : (-25 : α) ≠ 25 := by norm_num
  split_ifs <;> simp only [a1, b1, a2, b2, c1, c2, false_iff, true_iff, not_and, not_lt] <;>
    omega

theorem starCount_band {α : Type} (l : Nat → star α) (P : star α → Prop) [DecidablePred P]
    (a b : Nat) (hb : b ≤ MAX_STARS) (h : ∀ i, i < MAX_STARS → (P (l i) ↔ a ≤ i ∧ i < b)) :
    starCount l P = b - a := by
  unfold starCount
  have e : (Finset.range MAX_STARS).filter (fun i => P (l i)) = Finset.Ico a b := by
    ext i
    simp only [Finset.mem_filter, Finset.mem_range, Finset.mem_Ico]
    constructor
    · rintro ⟨hi, hp⟩; exact (h i hi).mp hp
    · rintro ⟨ha, hlt⟩
      have hi : i < MAX_STARS := lt_of_lt_of_le hlt hb
      exact ⟨hi, (h i hi).mpr ⟨ha, hlt⟩⟩
  rw [e, Nat.card_Ico]

theorem generateStars_counts {α : Type} [LinearOrderedField α] (rnd : Nat → Nat) :
    starCount (generateStars rnd (initStars : StarGen α)).starList (fun s => s.z = 25) = 166 ∧
    starCount (generateStars rnd (initStars : StarGen α)).starList (fun s => s.z = -25) = 167 ∧
    starCount (generateStars rnd (initStars : StarGen α)).starList (fun s => s.y = 25) = 166 ∧
    starCount (generateStars rnd (initStars : StarGen α)).starList (fun s => s.y = -25) = 167 ∧
    starCount (generateStars rnd (initStars : StarGen α)).starList (fun s => s.x = 25) = 167 ∧
    starCount (generateStars rnd (initStars : StarGen α)).starList (fun s => s.x = -25) = 167 := by
  refine ⟨?_, ?_, ?_, ?_, ?_, ?_⟩
  · refine starCount_band _ _ 834 1000 (le_refl _) (fun i hi => ?_)
    rw [(generateStars_bands rnd i hi).1]
    exact ⟨fun h => ⟨h, hi⟩, fun h => h.1⟩
  · exact starCount_band _ _ 667 834 (by decide) (fun i hi => (generateStars_bands rnd i hi).2.1)
  · exact starCount_band _ _ 501 667 (by decide)
      (fun i hi => (generateStars_bands rnd i hi).2.2.1)
  · exact starCount_band _ _ 334 501 (by decide)
      (fun i hi => (generateStars_bands rnd i hi).2.2.2.1)
  · exact starCount_band _ _ 167 334 (by decide)
      (fun i hi => (generateStars_bands rnd i hi).2.2.2.2.1)
  · refine starCount_band _ _ 0 167 (by decide) (fun i hi => ?_)
    rw [(generateStars_bands rnd i hi).2.2.2.2.2]
    exact ⟨fun h => ⟨Nat.zero_le i, h⟩, fun h => h.2⟩

/-- C9 (refuted as stated): the six bands are not equal; for the random sequence that is
constantly 0 the `+z` face receives 166 indices and the `-z` face 167. -/
theorem star_bands_not_equal :
    starCount (generateStars (fun _ => 0) (initStars : StarGen ℚ)).starList
        (fun s => s.z = (STAR_DEPTH : ℚ)) = 166 ∧
    starCount (generateStars (fun _ => 0) (initStars : StarGen ℚ)).starList
        (fun s => s.z = ((-STAR_DEPTH : Int) : ℚ)) = 167 ∧
    starCount (generateStars (fun _ => 0) (initStars : StarGen ℚ)).starList
        (fun s => s.z = (STAR_DEPTH : ℚ))
      ≠ starCount (generateStars (fun _ => 0) (initStars : StarGen ℚ)).starList
        (fun s => s.z = ((-STAR_DEPTH : Int) : ℚ)) := by
  have eD : ((STAR_DEPTH : Int) : ℚ) = 25 := by norm_num [STAR_DEPTH]
  have eN : (((-STAR_DEPTH : Int)) : ℚ) = -25 := by norm_num [STAR_DEPTH]
  have h := @generateStars_counts ℚ _ (fun _ => 0)
  simp only [eD, eN]
  rw [h.1, h.2.1]
  exact ⟨rfl, rfl, by decide⟩

/-- C9 (amended): `generateStars` partitions the `MAX_STARS = 1000` list indices into six
contiguous bands, one per cube face, assigned in the face order `+z, -z, +y, -y, +x, -x` from
the end of the list backward to index 0; the bands are nearly equal, not equal: they hold
166, 167, 166, 167, 167 and 167 indices. -/
theorem star_bands_contiguous_nearly_equal {α : Type} [LinearOrderedField α]
    (rnd : Nat → Nat) :
    (∀ i, i < MAX_STARS →
      (((generateStars rnd (initStars : StarGen α)).starList i).z = (STAR_DEPTH : α)
        ↔ 834 ≤ i) ∧
      (((generateStars rnd (initStars : StarGen α)).starList i).z = ((-STAR_DEPTH : Int) : α)
        ↔ 667 ≤ i ∧ i < 834) ∧
      (((generateStars rnd (initStars : StarGen α)).starList i).y = (STAR_DEPTH : α)
        ↔ 501 ≤ i ∧ i < 667) ∧
      (((generateStars rnd (initStars : StarGen α)).starList i).y = ((-STAR_DEPTH : Int) : α)
        ↔ 334 ≤ i ∧ i < 501) ∧
      (((generateStars rnd (initStars : StarGen α)).starList i).x = (STAR_DEPTH : α)
        ↔ 167 ≤ i ∧ i < 334) ∧
      (((generateStars rnd (initStars : StarGen α)).starList i).x = ((-STAR_DEPTH : Int) : α)
        ↔ i < 167)) ∧
    starCount (generateStars rnd (initStars : StarGen α)).starList
      (fun s => s.z = (STAR_DEPTH : α)) = 166 ∧
    starCount (generateStars rnd (initStars : StarGen α)).starList
      (fun s => s.z = ((-STAR_DEPTH : Int) : α)) = 167 ∧
    starCount (generateStars rnd (initStars : StarGen α)).starList
      (fun s => s.y = (STAR_DEPTH : α)) = 166 ∧
    starCount (generateStars rnd (initStars : StarGen α)).starList
      (fun s => s.y = ((-STAR_DEPTH : Int) : α)) = 167 ∧
    starCount (generateStars rnd (initStars : StarGen α)).starList
      (fun s => s.x = (STAR_DEPTH : α)) = 167 ∧
    starCount (generateStars rnd (initStars : StarGen α)).starList
      (fun s => s.x = ((-STAR_DEPTH : Int) : α)) = 167 := by
  have eD : ((STAR_DEPTH : Int) : α) = 25 := by norm_num [STAR_DEPTH]
  have eN : (((-STAR_DEPTH : Int)) : α) = -25 := by norm_num [STAR_DEPTH]
  simp only [eD, eN]
  exact ⟨fun i hi => generateStars_bands rnd i hi, generateStars_counts rnd⟩

/-- C9 (amended) at index 833, the last index of the `-z` band, for the random sequence
`7 k + 3`. -/
theorem star_bands_contiguous_nearly_equal_witness :
    833 < MAX_STARS ∧
    (((generateStars (fun k => 7 * k + 3) (initStars : StarGen ℚ)).starList 833).z
        = ((-STAR_DEPTH : Int) : ℚ) ↔ 667 ≤ 833 ∧ 833 < 834) :=
  ⟨by decide,
   ((star_bands_contiguous_nearly_equal (fun k => 7 * k + 3)).1 833 (by decide)).2.1⟩

/-! ## Mode key -/

/-- C12: for every camera with `isTeapot` in `{0, 1}`, one `p` key changes `isTeapot` to the
other value and leaves `totalX`, `totalY`, `totalZ`, `rotX` and `tilt` unchanged; a second `p`
key returns the camera to its original state. -/
theorem mode_toggle_involution {α : Type} [LinearOrderedField α] (c : Camera α)
    (h : c.isTeapot = 0 ∨ c.isTeapot = 1) :
    keyboard 'p' c = some { c with isTeapot := 1 - c.isTeapot } ∧
    (1 - c.isTeapot ≠ c.isTeapot ∧ (1 - c.isTeapot = 0 ∨ 1 - c.isTeapot = 1)) ∧
    keyboard 'p' { c with isTeapot := 1 - c.isTeapot } = some c := by
  obtain ⟨x, y, z, r, t, m⟩ := c
  simp only at h
  rcases h with h | h <;> subst h <;> simp [keyboard]

/-- C12 at the initial camera (sphere mode, `isTeapot = 0`). -/
theorem mode_toggle_involution_witness :
    ((initCamera : Camera ℚ).isTeapot = 0 ∨ (initCamera : Camera ℚ).isTeapot = 1) ∧
    (keyboard 'p' (initCamera : Camera ℚ)
        = some { (initCamera : Camera ℚ) with isTeapot := 1 - (initCamera : Camera ℚ).isTeapot } ∧
     (1 - (initCamera : Camera ℚ).isTeapot ≠ (initCamera : Camera ℚ).isTeapot ∧
      (1 - (initCamera : Camera ℚ).isTeapot = 0 ∨ 1 - (initCamera : Camera ℚ).isTeapot = 1)) ∧
     keyboard 'p' { (initCamera : Camera ℚ) with isTeapot := 1 - (initCamera : Camera ℚ).isTeapot }
        = some (initCamera : Camera ℚ)) :=
  ⟨Or.inl rfl, mode_toggle_involution initCamera (Or.inl rfl)⟩

/-! ## Per-tick increments -/

/-- The links, depths and radii of the built hierarchy after any number of ticks. -/
theorem spinN_built_links {α : Type} [LinearOrderedField α] (n : Nat) :
    ((spinN n (builtScene : Scene α)).planetList 0).hostNum = -1 ∧
    (((spinN n (builtScene : Scene α)).planetList 1).hostNum = 0 ∧
      ((spinN n (builtScene : Scene α)).planetList 1).depth = 1 ∧
      ((spinN n (builtScene : Scene α)).planetList 1).dist = 4.5) ∧
    (((spinN n (builtScene : Scene α)).planetList 2).hostNum = 1 ∧
      ((spinN n (builtScene : Scene α)).planetList 2).depth = 2 ∧
      ((spinN n (builtScene : Scene α)).planetList 2).dist = 2) ∧
    (((spinN n (builtScene : Scene α)).planetList 3).hostNum = 0 ∧
      ((spinN n (builtScene : Scene α)).planetList 3).depth = 1 ∧
      ((spinN n (builtScene : Scene α)).planetList 3).dist = 8.5) := by
  have f0 := spinN_fixedEq n (builtScene : Scene α) 0
  have f1 := spinN_fixedEq n (builtScene : Scene α) 1
  have f2 := spinN_fixedEq n (builtScene : Scene α) 2
  have f3 := spinN_fixedEq n (builtScene : Scene α) 3
  rw [builtScene_body0] at f0
  rw [builtScene_body1] at f1
  rw [builtScene_body2] at f2
  rw [builtScene_body3] at f3
  obtain ⟨-, -, -, -, -, -, -, a8, -, -⟩ := f0
  obtain ⟨-, -, -, -, -, -, -, b8, b9, b10⟩ := f1
  obtain ⟨-, -, -, -, -, -, -, c8, c9, c10⟩ := f2
  obtain ⟨-, -, -, -, -, -, -, d8, d9, d10⟩ := f3
  exact ⟨a8.symm, ⟨b8.symm, b9.symm, b10.symm⟩, ⟨c8.symm, c9.symm, c10.symm⟩,
    ⟨d8.symm, d9.symm, d10.symm⟩⟩

/-- On the built hierarchy the increment computed by `spin()` is the one the claim words. -/
theorem rotateStep_eq_spec {α : Type} [LinearOrderedField α] (n i : Nat) (hi : i < 4) :
    rotateStep ((spinN n (builtScene : Scene α)).planetList i)
      = specRotateStep (spinN n (builtScene : Scene α)) i ∧
    (0 < ((spinN n (builtScene : Scene α)).planetList i).hostNum ↔
      (0 ≤ ((spinN n (builtScene : Scene α)).planetList i).hostNum ∧
        ((spinN n (builtScene : Scene α)).planetList
          ((spinN n (builtScene : Scene α)).planetList i).hostNum.toNat).hostNum ≠ -1)) := by
  obtain ⟨a, ⟨b1, b2, b3⟩, ⟨c1, c2, c3⟩, ⟨d1, d2, d3⟩⟩ := @spinN_built_links α _ n
  interval_cases i
  · simp [rotateStep, specRotateStep, a]
  · simp [rotateStep, specRotateStep, a, b1, b2, b3, div_eq_mul_inv]
  · simp [rotateStep, specRotateStep, b1, c1, c2, c3, div_eq_mul_inv]
  · simp [rotateStep, specRotateStep, a, d1, d2, d3, div_eq_mul_inv]

theorem specRotateStep_values {α : Type} [LinearOrderedField α] (n : Nat) :
    specRotateStep (spinN n (builtScene : Scene α)) 0 = 10 ∧
    specRotateStep (spinN n (builtScene : Scene α)) 1 = 10 / 4.5 ∧
    specRotateStep (spinN n (builtScene : Scene α)) 2 = 10 / 2 + 10 * 2 ∧
    specRotateStep (spinN n (builtScene : Scene α)) 2 = 25 ∧
    specRotateStep (spinN n (builtScene : Scene α)) 3 = 10 / 8.5 ∧
    specRotateStep (spinN n (builtScene : Scene α)) 3
      < specRotateStep (spinN n (builtScene : Scene α)) 1 := by
  obtain ⟨a, ⟨b1, b2, b3⟩, ⟨c1, c2, c3⟩, ⟨d1, d2, d3⟩⟩ := @spinN_built_links α _ n
  have v0 : specRotateStep (spinN n (builtScene : Scene α)) 0 = 10 := by
    simp [specRotateStep, a, SPIN_SPEED]; norm_num
  have v1 : specRotateStep (spinN n (builtScene : Scene α)) 1 = 10 / 4.5 := by
    simp [specRotateStep, a, b1, b2, b3, SPIN_SPEED]; norm_num
  have v2 : specRotateStep (spinN n (builtScene : Scene α)) 2 = 10 / 2 + 10 * 2 := by
    simp [specRotateStep, b1, c1, c2, c3, SPIN_SPEED]; norm_num
  have v3 : specRotateStep (spinN n (builtScene : Scene α)) 3 = 10 / 8.5 := by
    simp [specRotateStep, a, d1, d2, d3, SPIN_SPEED]; norm_num
  refine ⟨v0, v1, v2, ?_, v3, ?_⟩
  · rw [v2]; norm_num
  · rw [v1, v3]; norm_num

/-- C13: for every body `i` of the built hierarchy, after any number of earlier ticks, one
call of `spin()` adds to `rotate_i`, before the single conditional subtraction of 360,
`SPIN_SPEED` if `hostNum_i = -1` and otherwise `SPIN_SPEED / dist_i` plus an extra
`SPIN_SPEED * depth_i` exactly when the host is a non-root body; the code's test
`hostNum_i > 0` coincides with "hosted by a non-root body" there.  The body at distance 4.5
gets a strictly larger increment than the one at 8.5, and the moon (body 2) advances by
`10/2 + 10*2 = 25` per tick. -/
theorem per_tick_orbit_increment {α : Type} [LinearOrderedField α] (n i : Nat)
    (hi : i < (spinN n (builtScene : Scene α)).planIndex) :
    ((spin (spinN n (builtScene : Scene α))).planetList i).rotate
      = wrap360 (((spinN n (builtScene : Scene α)).planetList i).rotate
          + specRotateStep (spinN n (builtScene : Scene α)) i) ∧
    (0 < ((spinN n (builtScene : Scene α)).planetList i).hostNum ↔
      (0 ≤ ((spinN n (builtScene : Scene α)).planetList i).hostNum ∧
        ((spinN n (builtScene : Scene α)).planetList
          ((spinN n (builtScene : Scene α)).planetList i).hostNum.toNat).hostNum ≠ -1)) ∧
    (specRotateStep (spinN n (builtScene : Scene α)) 3
      < specRotateStep (spinN n (builtScene : Scene α)) 1 ∧
     specRotateStep (spinN n (builtScene : Scene α)) 1 = 10 / 4.5 ∧
     specRotateStep (spinN n (builtScene : Scene α)) 3 = 10 / 8.5) ∧
    (specRotateStep (spinN n (builtScene : Scene α)) 2 = 10 / 2 + 10 * 2 ∧
     specRotateStep (spinN n (builtScene : Scene α)) 2 = 25) := by
  have hi4 : i < 4 := by rw [spinN_planIndex] at hi; exact hi
  obtain ⟨e, hc⟩ := @rotateStep_eq_spec α _ n i hi4
  obtain ⟨-, v1, v2, v2b, v3, hlt⟩ := @specRotateStep_values α _ n
  refine ⟨?_, hc, ⟨hlt, v1, v3⟩, ⟨v2, v2b⟩⟩
  rw [spin_planetList, if_pos hi, spinPlanet_rotate, e]

/-- C13 for the moon (body 2) on the first tick. -/
theorem per_tick_orbit_increment_witness :
    2 < (spinN 0 (builtScene : Scene ℚ)).planIndex ∧
    ((spin (spinN 0 (builtScene : Scene ℚ))).planetList 2).rotate
      = wrap360 (((spinN 0 (builtScene : Scene ℚ)).planetList 2).rotate
          + specRotateStep (spinN 0 (builtScene : Scene ℚ)) 2) :=
  ⟨by decide, (per_tick_orbit_increment 0 2 (by decide)).1⟩

/-! ## The interval `(0, 360]` -/

theorem wrap360_pos {α : Type} [LinearOrderedField α] (a d : α)
    (ha : 0 ≤ a ∧ a ≤ 360) (hd : 0 < d ∧ d ≤ 360) :
    0 < wrap360 (a + d) ∧ wrap360 (a + d) ≤ 360 := by
  refine ⟨?_, (wrap360_bounds a d ha ⟨le_of_lt hd.1, hd.2⟩).2⟩
  unfold wrap360
  have e : (360.0 : α) = 360 := by norm_num
  rw [e]
  split_ifs with h
  · linarith
  · linarith [ha.1, hd.1]

theorem builtScene_rotateStep_range {α : Type} [LinearOrderedField α] (i : Nat) (hi : i < 4) :
    0 < rotateStep ((builtScene : Scene α).planetList i) ∧
    rotateStep ((builtScene : Scene α).planetList i) ≤ 25 := by
  interval_cases i
  · rw [builtScene_body0]; norm_num [rotateStep, SPIN_SPEED, planet.zero]
  · rw [builtScene_body1]; norm_num [rotateStep, SPIN_SPEED, planet.zero]
  · rw [builtScene_body2]; norm_num [rotateStep, SPIN_SPEED, planet.zero]
  · rw [builtScene_body3]; norm_num [rotateStep, SPIN_SPEED, planet.zero]

theorem spinN_succ_anglesOpenClosed {α : Type} [LinearOrderedField α] (m : Nat) :
    (spinN (m + 1) (builtScene : Scene α)).anglesOpenClosed := by
  intro i hi
  rw [spinN_planIndex] at hi
  have hi4 : i < 4 := hi
  have hi2 : i < (spinN m (builtScene : Scene α)).planIndex := by
    rw [spinN_planIndex]; exact hi
  have hs : (spinN (m + 1) (builtScene : Scene α)).planetList i
      = spinPlanet ((spinN m builtScene).planetList i) := by
    rw [spinN, spin_planetList, if_pos hi2]
  have hc := @spinN_builtScene_anglesClosed α _ m i hi2
  have hr := @builtScene_rotateStep_range α _ i hi4
  rw [hs, spinPlanet_spin, spinPlanet_rotate,
    ← rotateStep_congr (spinN_fixedEq m builtScene i)]
  exact ⟨wrap360_pos _ _ hc.1 (by norm_num [SPIN_SPEED]),
    wrap360_pos _ _ hc.2 ⟨hr.1, le_trans hr.2 (by norm_num)⟩⟩

/-- C16: starting from the state built by `generatePlanets`, after any number `n ≥ 1` of
`spin()` ticks every body's spin and rotate angle lies in `(0, 360]`.  No per-tick increment
of the four bodies exceeds 25 (the moon's is 25), an angle can rest exactly at 360 (the
root's spin after 36 ticks), and the root's spin is never 0 again. -/
theorem angles_in_open_closed_interval {α : Type} [LinearOrderedField α] (n : Nat)
    (hn : 1 ≤ n) :
    (spinN n (builtScene : Scene α)).anglesOpenClosed ∧
    ((SPIN_SPEED : α) ≤ 25 ∧
      (∀ i, i < (spinN n (builtScene : Scene α)).planIndex →
        rotateStep ((spinN n (builtScene : Scene α)).planetList i) ≤ 25) ∧
      rotateStep ((spinN n (builtScene : Scene α)).planetList 2) = 25) ∧
    ((spinN 36 (builtScene : Scene α)).planetList 0).spin = 360 ∧
    ((spinN n (builtScene : Scene α)).planetList 0).spin ≠ 0 := by
  obtain ⟨m, rfl⟩ : ∃ m, n = m + 1 := ⟨n - 1, by omega⟩
  have hoc := @spinN_succ_anglesOpenClosed α _ m
  have h0 : 0 < (spinN (m + 1) (builtScene : Scene α)).planIndex := by
    rw [spinN_planIndex]; exact Nat.succ_pos 3
  refine ⟨hoc, ⟨by norm_num [SPIN_SPEED], fun i hi => ?_, ?_⟩, ?_, ?_⟩
  · rw [spinN_planIndex] at hi
    rw [← rotateStep_congr (spinN_fixedEq (m + 1) builtScene i)]
    exact (builtScene_rotateStep_range i hi).2
  · rw [← rotateStep_congr (spinN_fixedEq (m + 1) builtScene 2), builtScene_body2]
    norm_num [rotateStep, SPIN_SPEED, planet.zero]
  · rw [root_spin_linear 36 (le_refl 36)]; norm_num
  · exact ne_of_gt (hoc 0 h0).1.1

/-- C16 after one tick. -/
theorem angles_in_open_closed_interval_witness :
    1 ≤ 1 ∧ (spinN 1 (builtScene : Scene ℚ)).anglesOpenClosed :=
  ⟨le_refl 1, (angles_in_open_closed_interval 1 (le_refl 1)).1⟩

/-! ## Face bands -/

/-- The list of faces of the star generated at index `i`, by index band. -/
theorem generateStars_faces {α : Type} [LinearOrderedField α] (rnd : Nat → Nat) (i : Nat)
    (hi : i < MAX_STARS) :
    ((generateStars rnd (initStars : StarGen α)).starList i).faces =
      [if i < 167 then Face.negX else if i < 334 then Face.posX
       else if i < 501 then Face.negY else if i < 667 then Face.posY
       else if i < 834 then Face.negZ else Face.posZ] := by
  obtain ⟨b1, b2, b3, b4, b5, b6⟩ := @generateStars_bands α _ rnd i hi
  have eD : ((STAR_DEPTH : Int) : α) = 25 := by norm_num [STAR_DEPTH]
  have eN : (((-STAR_DEPTH : Int)) : α) = -25 := by norm_num [STAR_DEPTH]
  unfold star.faces
  rw [eD, eN]
  simp only [b1, b2, b3, b4, b5, b6]
  have hi2 : i < 1000 := hi
  by_cases h1 : i < 167
  · have c2 : ¬ (167 ≤ i ∧ i < 334) := by omega
    have c3 : ¬ (334 ≤ i ∧ i < 501) := by omega
    have c4 : ¬ (501 ≤ i ∧ i < 667) := by omega
    have c5 : ¬ (667 ≤ i ∧ i < 834) := by omega
    have c6 : ¬ (834 ≤ i) := by omega
    simp only [if_pos h1, if_neg c2, if_neg c3, if_neg c4, if_neg c5, if_neg c6,
      List.append_nil]
  · have c2 : (167 ≤ i ∧ i < 334) ↔ i < 334 := by omega
    simp only [if_neg h1, c2, List.nil_append]
    by_cases h2 : i < 334
    · have c3 : ¬ (334 ≤ i ∧ i < 501) := by omega
      have c4 : ¬ (501 ≤ i ∧ i < 667) := by omega
      have c5 : ¬ (667 ≤ i ∧ i < 834) := by omega
      have c6 : ¬ (834 ≤ i) := by omega
      simp only [if_pos h2, if_neg c3, if_neg c4, if_neg c5, if_neg c6, List.append_nil]
    · have c3 : (334 ≤ i ∧ i < 501) ↔ i < 501 := by omega
      simp only [if_neg h2, c3, List.nil_append]
      by_cases h3 : i < 501
      · have c4 : ¬ (501 ≤ i ∧ i < 667) := by omega
        have c5 : ¬ (667 ≤ i ∧ i < 834) := by omega
        have c6 : ¬ (834 ≤ i) := by omega
        simp only [if_pos h3, if_neg c4, if_neg c5, if_neg c6, List.append_nil]
      · have c4 : (501 ≤ i ∧ i < 667) ↔ i < 667 := by omega
        simp only [if_neg h3, c4, List.nil_append]
        by_cases h4 : i < 667
        · have c5 : ¬ (667 ≤ i ∧ i < 834) := by omega
          have c6 : ¬ (834 ≤ i) := by omega
          simp only [if_pos h4, if_neg c5, if_neg c6, List.append_nil]
        · have c5 : (667 ≤ i ∧ i < 834) ↔ i < 834 := by omega
          simp only [if_neg h4, c5, List.nil_append]
          by_cases h5 : i < 834
          · have c6 : ¬ (834 ≤ i) := by omega
            simp only [if_pos h5, if_neg c6, List.append_nil]
          · have c6 : 834 ≤ i := by omega
            simp only [if_neg h5, if_pos c6, List.nil_append]

theorem generateStars_face_iff {α : Type} [LinearOrderedField α] (rnd : Nat → Nat) (i : Nat)
    (hi : i < MAX_STARS) :
    (((generateStars rnd (initStars : StarGen α)).starList i).faces = [Face.negX]
      ↔ 0 ≤ i ∧ i < 167) ∧
    (((generateStars rnd (initStars : StarGen α)).starList i).faces = [Face.posX]
      ↔ 167 ≤ i ∧ i < 334) ∧
    (((generateStars rnd (initStars : StarGen α)).starList i).faces = [Face.negY]
      ↔ 334 ≤ i ∧ i < 501) ∧
    (((generateStars rnd (initStars : StarGen α)).starList i).faces = [Face.posY]
      ↔ 501 ≤ i ∧ i < 667) ∧
    (((generateStars rnd (initStars : StarGen α)).starList i).faces = [Face.negZ]
      ↔ 667 ≤ i ∧ i < 834) ∧
    (((generateStars rnd (initStars : StarGen α)).starList i).faces = [Face.posZ]
      ↔ 834 ≤ i ∧ i < 1000) := by
  have hi2 : i < 1000 := hi
  rw [generateStars_faces rnd i hi]
  refine ⟨?_, ?_, ?_, ?_, ?_, ?_⟩ <;> split_ifs <;>
    simp only [List.cons.injEq, and_true, reduceCtorEq, false_iff, true_iff] <;> omega

/-- C17: with `MAX_STARS = 1000`, `generateStars` sends the indices 0..166 to the `-x` face
(167 stars), 167..333 to `+x` (167), 334..500 to `-y` (167), 501..666 to `+y` (166),
667..833 to `-z` (167) and 834..999 to `+z` (166); the star of every index in `[0, 1000)`
lies on exactly one face, the one of its band. -/
theorem exact_face_bands {α : Type} [LinearOrderedField α] (rnd : Nat → Nat) :
    MAX_STARS = 1000 ∧
    (∀ i, i < MAX_STARS →
      ((generateStars rnd (initStars : StarGen α)).starList i).faces =
        [if i ≤ 166 then Face.negX else if i ≤ 333 then Face.posX
         else if i ≤ 500 then Face.negY else if i ≤ 666 then Face.posY
         else if i ≤ 833 then Face.negZ else Face.posZ]) ∧
    starCount (generateStars rnd (initStars : StarGen α)).starList
      (fun s => s.faces = [Face.negX]) = 167 ∧
    starCount (generateStars rnd (initStars : StarGen α)).starList
      (fun s => s.faces = [Face.posX]) = 167 ∧
    starCount (generateStars rnd (initStars : StarGen α)).starList
      (fun s => s.faces = [Face.negY]) = 167 ∧
    starCount (generateStars rnd (initStars : StarGen α)).starList
      (fun s => s.faces = [Face.posY]) = 166 ∧
    starCount (generateStars rnd (initStars : StarGen α)).starList
      (fun s => s.faces = [Face.negZ]) = 167 ∧
    starCount (generateStars rnd (initStars : StarGen α)).starList
      (fun s => s.faces = [Face.posZ]) = 166 := by
  refine ⟨rfl, fun i hi => ?_, ?_, ?_, ?_, ?_, ?_, ?_⟩
  · rw [generateStars_faces rnd i hi]
    have e1 : i ≤ 166 ↔ i < 167 := by omega
    have e2 : i ≤ 333 ↔ i < 334 := by omega
    have e3 : i ≤ 500 ↔ i < 501 := by omega
    have e4 : i ≤ 666 ↔ i < 667 := by omega
    have e5 : i ≤ 833 ↔ i < 834 := by omega
    simp only [e1, e2, e3, e4, e5]
  · exact starCount_band _ _ 0 167 (by decide)
      (fun i hi => (generateStars_face_iff rnd i hi).1)
  · exact starCount_band _ _ 167 334 (by decide)
      (fun i hi => (generateStars_face_iff rnd i hi).2.1)
  · exact starCount_band _ _ 334 501 (by decide)
      (fun i hi => (generateStars_face_iff rnd i hi).2.2.1)
  · exact starCount_band _ _ 501 667 (by decide)
      (fun i hi => (generateStars_face_iff rnd i hi).2.2.2.1)
  · exact starCount_band _ _ 667 834 (by decide)
      (fun i hi => (generateStars_face_iff rnd i hi).2.2.2.2.1)
  · exact starCount_band _ _ 834 1000 (by decide)
      (fun i hi => (generateStars_face_iff rnd i hi).2.2.2.2.2)

/-- C17 at index 501, the first index of the `+y` band, for the random sequence `7 k + 3`. -/
theorem exact_face_bands_witness :
    501 < MAX_STARS ∧
    ((generateStars (fun k => 7 * k + 3) (initStars : StarGen ℚ)).starList 501).faces =
      [if 501 ≤ 166 then Face.negX else if 501 ≤ 333 then Face.posX
       else if 501 ≤ 500 then Face.negY else if 501 ≤ 666 then Face.posY
       else if 501 ≤ 833 then Face.negZ else Face.posZ] :=
  ⟨by decide, (exact_face_bands (fun k => 7 * k + 3)).2.1 501 (by decide)⟩

/-! ## Idempotence of the render pass -/

theorem planet_eq_of_placedEq {α : Type} {p q : planet α} (h : p.placedEq q)
    (hx : p.x = q.x) (hz : p.z = q.z) : p = q := by
  obtain ⟨h1, h2, h3, h4, h5, h6, h7, h8, h9, h10⟩ := h
  cases p
  cases q
  simp only [planet.mk.injEq]
  simp only at h1 h2 h3 h4 h5 h6 h7 h8 h9 h10 hx hz
  exact ⟨h1, h2, h3, hx, h4, hz, h5, h6, h7, h8, h9, h10⟩

theorem forLoop_dispPlanet_untouched {α : Type} [LinearOrderedField α] (cos sin : α → α)
    (st : Scene α) (k : Nat) :
    ∀ j, k ≤ j → (forLoop k (dispPlanet cos sin) st).planetList j = st.planetList j := by
  induction k with
  | zero => intro j _; rfl
  | succ k ih =>
    intro j hj
    rw [forLoop_succ, dispPlanet_other cos sin k j _ (by omega)]
    exact ih j (by omega)

/-- Two scenes that agree on every field other than the stored positions of hosted bodies
are rendered to the same bodies: the pass recomputes every hosted position from the root
positions, `dist` and `rotate`. -/
theorem forLoop_dispPlanet_agree {α : Type} [LinearOrderedField α] (cos sin : α → α)
    (s1 s2 : Scene α) (hp : ∀ j, (s1.planetList j).placedEq (s2.planetList j))
    (hroot : ∀ j, (s1.planetList j).hostNum < 0 →
      (s1.planetList j).x = (s2.planetList j).x ∧ (s1.planetList j).z = (s2.planetList j).z)
    (k : Nat) (hwf : ∀ i, i < k → (s1.planetList i).hostNum < (i : Int)) :
    ∀ j, j < k → (forLoop k (dispPlanet cos sin) s1).planetList j
      = (forLoop k (dispPlanet cos sin) s2).planetList j := by
  induction k with
  | zero => intro j hj; exact absurd hj (Nat.not_lt_zero j)
  | succ k ih =>
    have ih2 := ih (fun i hi => hwf i (Nat.lt_succ_of_lt hi))
    intro j hj
    rw [forLoop_succ, forLoop_succ]
    by_cases hjk : j = k
    · subst hjk
      have u1 := forLoop_dispPlanet_untouched cos sin s1 j j (le_refl j)
      have u2 := forLoop_dispPlanet_untouched cos sin s2 j j (le_refl j)
      have hpj := hp j
      have hh : (s2.planetList j).hostNum = (s1.planetList j).hostNum := hpj.2.2.2.2.2.1.symm
      by_cases h0 : (s1.planetList j).hostNum < 0
      · rw [dispPlanet_root cos sin j j _ (by rw [u1]; exact h0),
          dispPlanet_root cos sin j j _ (by rw [u2, hh]; exact h0), u1, u2]
        exact planet_eq_of_placedEq hpj (hroot j h0).1 (hroot j h0).2
      · have h0' : 0 ≤ (s1.planetList j).hostNum := not_lt.mp h0
        have hlt := hwf j (Nat.lt_succ_self j)
        have hhost : (s1.planetList j).hostNum.toNat < j := by omega
        have hostEq := ih2 _ hhost
        obtain ⟨x1, z1⟩ := dispPlanet_self cos sin j (forLoop j (dispPlanet cos sin) s1)
          (by rw [u1]; exact h0')
        obtain ⟨x2, z2⟩ := dispPlanet_self cos sin j (forLoop j (dispPlanet cos sin) s2)
          (by rw [u2, hh]; exact h0')
        have q1 := dispPlanet_placedEq cos sin j j (forLoop j (dispPlanet cos sin) s1)
        have q2 := dispPlanet_placedEq cos sin j j (forLoop j (dispPlanet cos sin) s2)
        rw [u1] at q1 x1 z1
        rw [u2] at q2 x2 z2
        have q12 : ((dispPlanet cos sin j (forLoop j (dispPlanet cos sin) s1)).planetList
            j).placedEq
            ((dispPlanet cos sin j (forLoop j (dispPlanet cos sin) s2)).planetList j) := by
          unfold planet.placedEq at q1 q2 hpj ⊢
          obtain ⟨a1, a2, a3, a4, a5, a6, a7, a8, a9, a10⟩ := q1
          obtain ⟨b1, b2, b3, b4, b5, b6, b7, b8, b9, b10⟩ := q2
          obtain ⟨c1, c2, c3, c4, c5, c6, c7, c8, c9, c10⟩ := hpj
          exact ⟨by rw [← a1, ← b1, c1], by rw [← a2, ← b2, c2], by rw [← a3, ← b3, c3],
            by rw [← a4, ← b4, c4], by rw [← a5, ← b5, c5], by rw [← a6, ← b6, c6],
            by rw [← a7, ← b7, c7], by rw [← a8, ← b8, c8], by rw [← a9, ← b9, c9],
            by rw [← a10, ← b10, c10]⟩
        refine planet_eq_of_placedEq q12 ?_ ?_
        · rw [x1, x2, hh, hostEq, hpj.2.2.2.2.2.2.2.1, hpj.2.2.2.2.2.2.2.2.2]
        · rw [z1, z2, hh, hostEq, hpj.2.2.2.2.2.2.2.1, hpj.2.2.2.2.2.2.2.2.2]
    · rw [dispPlanet_other cos sin k j _ hjk, dispPlanet_other cos sin k j _ hjk]
      exact ih2 j (by omega)

theorem scene_ext {α : Type} {s t : Scene α} (h1 : ∀ j, s.planetList j = t.planetList j)
    (h2 : s.planIndex = t.planIndex) : s = t := by
  cases s
  cases t
  simp only [Scene.mk.injEq]
  exact ⟨funext h1, h2⟩

theorem spinN_built_hosts {α : Type} [LinearOrderedField α] (n i : Nat)
    (hi : i < (spinN n (builtScene : Scene α)).planIndex) :
    ((spinN n (builtScene : Scene α)).planetList i).hostNum < (i : Int) := by
  rw [spinN_planIndex] at hi
  rw [← (spinN_fixedEq n (builtScene : Scene α) i).2.2.2.2.2.2.2.1]
  exact (builtScene_hosts i hi).1

/-- C18: for a hierarchy in which every `hostNum` is `-1` or smaller than the body's own
index (the one built by `generatePlanets`, with any angles and any stored positions),
running the body loop of `display()` twice in a row gives the same state (positions, angles
and all other body fields) as running it once; the bodies after a pass are the same for
two scenes that differ only in the stored positions of hosted bodies. -/
theorem render_pass_idempotent {α : Type} [LinearOrderedField α] (cos sin : α → α)
    (st : Scene α)
    (hwf : ∀ i, i < st.planIndex →
      (st.planetList i).hostNum = -1 ∨ (st.planetList i).hostNum < (i : Int)) :
    display cos sin (display cos sin st) = display cos sin st ∧
    (∀ st2 : Scene α, st2.planIndex = st.planIndex →
      (∀ j, (st.planetList j).placedEq (st2.planetList j)) →
      (∀ j, (st.planetList j).hostNum < 0 →
        (st.planetList j).x = (st2.planetList j).x ∧
        (st.planetList j).z = (st2.planetList j).z) →
      ∀ j, j < st.planIndex →
        (display cos sin st2).planetList j = (display cos sin st).planetList j) := by
  have hwf2 : ∀ i, i < st.planIndex → (st.planetList i).hostNum < (i : Int) := by
    intro i hi
    rcases hwf i hi with h | h
    · rw [h]; omega
    · exact h
  have agree : ∀ st2 : Scene α, st2.planIndex = st.planIndex →
      (∀ j, (st.planetList j).placedEq (st2.planetList j)) →
      (∀ j, (st.planetList j).hostNum < 0 →
        (st.planetList j).x = (st2.planetList j).x ∧
        (st.planetList j).z = (st2.planetList j).z) →
      ∀ j, j < st.planIndex →
        (display cos sin st2).planetList j = (display cos sin st).planetList j := by
    intro st2 hn hp hroot j hj
    unfold display
    rw [hn]
    exact (forLoop_dispPlanet_agree cos sin st st2 hp hroot st.planIndex hwf2 j hj).symm
  refine ⟨scene_ext (fun j => ?_) ?_, agree⟩
  · by_cases hj : j < st.planIndex
    · refine agree (display cos sin st) (display_planIndex cos sin st)
        (fun k => display_placedEq cos sin st k) (fun k hk => ?_) j hj
      rw [display_root cos sin k st hk]
      exact ⟨rfl, rfl⟩
    · have hle : (display cos sin st).planIndex ≤ j := by
        rw [display_planIndex]; exact not_lt.mp hj
      exact forLoop_dispPlanet_untouched cos sin (display cos sin st) _ j hle
  · rw [display_planIndex]

/-- C18 for the built hierarchy after three ticks, over the reals with the real cosine and
sine. -/
theorem render_pass_idempotent_witness :
    (∀ i, i < (spinN 3 (builtScene : Scene ℝ)).planIndex →
      ((spinN 3 (builtScene : Scene ℝ)).planetList i).hostNum = -1 ∨
      ((spinN 3 (builtScene : Scene ℝ)).planetList i).hostNum < (i : Int)) ∧
    display Real.cos Real.sin (display Real.cos Real.sin (spinN 3 (builtScene : Scene ℝ)))
      = display Real.cos Real.sin (spinN 3 (builtScene : Scene ℝ)) :=
  ⟨fun i hi => Or.inr (spinN_built_hosts 3 i hi),
   (render_pass_idempotent Real.cos Real.sin (spinN 3 (builtScene : Scene ℝ))
      (fun i hi => Or.inr (spinN_built_hosts 3 i hi))).1⟩

/-! ## Rounding lemmas -/

theorem roundNE_le (y : ℚ) (n : ℤ) (h : y ≤ n) : roundNE y ≤ n := by
  unfold roundNE
  have hf : ⌊y⌋ ≤ n := by
    have h0 : (⌊y⌋ : ℚ) ≤ n := le_trans (Int.floor_le y) h
    exact_mod_cast h0
  have hfy : (⌊y⌋ : ℚ) ≤ y := Int.floor_le y
  split_ifs with h1 h2 h3
  · exact hf
  · by_contra hc
    have : n ≤ ⌊y⌋ := by omega
    have : (n : ℚ) ≤ ⌊y⌋ := by exact_mod_cast this
    linarith
  · exact hf
  · by_contra hc
    have : n ≤ ⌊y⌋ := by omega
    have : (n : ℚ) ≤ ⌊y⌋ := by exact_mod_cast this
    linarith

theorem le_roundNE (y : ℚ) (n : ℤ) (h : (n : ℚ) ≤ y) : n ≤ roundNE y := by
  unfold roundNE
  have hf : n ≤ ⌊y⌋ := Int.le_floor.mpr h
  split_ifs <;> omega

theorem roundNE_le_of_lt_half (y : ℚ) (n : ℤ) (h : y < n + 1 / 2) : roundNE y ≤ n := by
  unfold roundNE
  have hfy : (⌊y⌋ : ℚ) ≤ y := Int.floor_le y
  have hf : ⌊y⌋ ≤ n := by
    have : (⌊y⌋ : ℚ) < n + 1 := by linarith
    have : ⌊y⌋ < n + 1 := by exact_mod_cast this
    omega
  rcases lt_or_eq_of_le hf with hlt | heq
  · split_ifs <;> omega
  · have hfrac : y - ⌊y⌋ < 1 / 2 := by rw [heq]; linarith
    rw [if_pos hfrac]
    exact hf

theorem le_roundNE_of_gt_half (y : ℚ) (n : ℤ) (h : (n : ℚ) - 1 / 2 < y) : n ≤ roundNE y := by
  unfold roundNE
  have hlt : y < ⌊y⌋ + 1 := Int.lt_floor_add_one y
  have hf : n - 1 ≤ ⌊y⌋ := by
    have : ((n - 1 : ℤ) : ℚ) < ⌊y⌋ + 1 := by push_cast; linarith
    have : n - 1 < ⌊y⌋ + 1 := by exact_mod_cast this
    omega
  rcases lt_or_eq_of_le hf with hlt2 | heq
  · split_ifs <;> omega
  · have hfl : (⌊y⌋ : ℚ) = n - 1 := by rw [← heq]; push_cast; ring
    have hfrac : 1 / 2 < y - ⌊y⌋ := by rw [hfl]; linarith
    rw [if_neg (not_lt.mpr (le_of_lt hfrac)), if_pos hfrac]
    omega

theorem roundNE_eq (y : ℚ) (n : ℤ) (h1 : (n : ℚ) - 1 / 2 < y) (h2 : y < n + 1 / 2) :
    roundNE y = n :=
  le_antisymm (roundNE_le_of_lt_half y n h2) (le_roundNE_of_gt_half y n h1)

theorem roundNE_sub_le (y : ℚ) : |(roundNE y : ℚ) - y| ≤ 1 / 2 := by
  unfold roundNE
  have hfy : (⌊y⌋ : ℚ) ≤ y := Int.floor_le y
  have hlt : y < ⌊y⌋ + 1 := Int.lt_floor_add_one y
  rw [abs_le]
  split_ifs with h1 h2 h3
  · constructor <;> linarith
  · push_cast; constructor <;> linarith
  · constructor <;> linarith
  · push_cast
    have : y - ⌊y⌋ = 1 / 2 := le_antisymm (not_lt.mp h2) (not_lt.mp h1)
    constructor <;> linarith

theorem two_zpow_pos (z : ℤ) : (0 : ℚ) < 2 ^ z := zpow_pos (by norm_num) z

theorem two_zpow_sub (k j : ℤ) (h : j ≤ k) :
    (2 : ℚ) ^ k = (((2 : ℤ) ^ (k - j).toNat : ℤ) : ℚ) * 2 ^ j := by
  have e : k = ((k - j).toNat : ℤ) + j := by omega
  conv_lhs => rw [e]
  rw [zpow_add₀ (by norm_num : (2 : ℚ) ≠ 0), zpow_natCast]
  push_cast
  rfl

theorem ulpExp_le (p : Nat) (emin k : ℤ) (x : ℚ) (hk : emin ≤ k) (hx0 : x ≠ 0)
    (hx : |x| < 2 ^ (k + (p : ℤ))) : ulpExp p emin x ≤ k := by
  unfold ulpExp
  have hpos : 0 < |x| := abs_pos.mpr hx0
  have hlog : Int.log 2 |x| < k + (p : ℤ) := by
    exact (@Int.lt_zpow_iff_log_lt ℚ _ _ 2 (by norm_num) (k + (p : ℤ)) |x| hpos).mp
      (by exact_mod_cast hx)
  exact max_le (by omega) hk

theorem roundTo_zero (p : Nat) (emin : ℤ) : roundTo p emin 0 = 0 := by
  have : roundNE 0 = 0 := roundNE_eq 0 0 (by norm_num) (by norm_num)
  simp [roundTo, this]

/-- A value at most a non-negative grid point `m * 2 ^ k` of the format rounds to at most
that grid point. -/
theorem roundTo_le (p : Nat) (emin m k : ℤ) (hk : emin ≤ k) (hm : 0 ≤ m)
    (hB : (m : ℚ) * 2 ^ k < 2 ^ (k + (p : ℤ))) (x : ℚ) (hx : x ≤ m * 2 ^ k) :
    roundTo p emin x ≤ m * 2 ^ k := by
  have hB0 : (0 : ℚ) ≤ m * 2 ^ k :=
    mul_nonneg (by exact_mod_cast hm) (le_of_lt (two_zpow_pos k))
  unfold roundTo
  have hq := two_zpow_pos (ulpExp p emin x)
  rcases le_or_lt x 0 with h0 | h0
  · have h1 : x / 2 ^ ulpExp p emin x ≤ ((0 : ℤ) : ℚ) := by
      rw [Int.cast_zero]; exact div_nonpos_of_nonpos_of_nonneg h0 (le_of_lt hq)
    have h2 : (roundNE (x / 2 ^ ulpExp p emin x) : ℚ) ≤ 0 := by
      exact_mod_cast roundNE_le _ 0 h1
    exact le_trans (mul_nonpos_of_nonpos_of_nonneg h2 (le_of_lt hq)) hB0
  · have habs : |x| = x := abs_of_pos h0
    have hj : ulpExp p emin x ≤ k :=
      ulpExp_le p emin k x hk (ne_of_gt h0) (by rw [habs]; exact lt_of_le_of_lt hx hB)
    have e := two_zpow_sub k (ulpExp p emin x) hj
    have h1 : x / 2 ^ ulpExp p emin x
        ≤ ((m * (2 : ℤ) ^ (k - ulpExp p emin x).toNat : ℤ) : ℚ) := by
      rw [div_le_iff₀ hq]
      push_cast
      rw [mul_assoc]
      have e2 : ((2 : ℚ) ^ (k - ulpExp p emin x).toNat) * 2 ^ ulpExp p emin x = 2 ^ k := by
        rw [e]; push_cast; rfl
      rw [e2]; exact hx
    have h2 := roundNE_le _ _ h1
    have h3 : (roundNE (x / 2 ^ ulpExp p emin x) : ℚ)
        ≤ ((m * (2 : ℤ) ^ (k - ulpExp p emin x).toNat : ℤ) : ℚ) := by exact_mod_cast h2
    calc (roundNE (x / 2 ^ ulpExp p emin x) : ℚ) * 2 ^ ulpExp p emin x
        ≤ ((m * (2 : ℤ) ^ (k - ulpExp p emin x).toNat : ℤ) : ℚ) * 2 ^ ulpExp p emin x :=
          mul_le_mul_of_nonneg_right h3 (le_of_lt hq)
      _ = m * 2 ^ k := by
          push_cast
          rw [mul_assoc]
          congr 1
          rw [e]; push_cast; rfl

/-- A value at least the negative of a grid point `m * 2 ^ k` of the format rounds to at
least that negative grid point. -/
theorem le_roundTo (p : Nat) (emin m k : ℤ) (hk : emin ≤ k) (hm : 0 ≤ m)
    (hB : (m : ℚ) * 2 ^ k < 2 ^ (k + (p : ℤ))) (x : ℚ) (hx : -((m : ℚ) * 2 ^ k) ≤ x) :
    -((m : ℚ) * 2 ^ k) ≤ roundTo p emin x := by
  have hB0 : (0 : ℚ) ≤ m * 2 ^ k :=
    mul_nonneg (by exact_mod_cast hm) (le_of_lt (two_zpow_pos k))
  unfold roundTo
  have hq := two_zpow_pos (ulpExp p emin x)
  rcases le_or_lt 0 x with h0 | h0
  · have h1 : ((0 : ℤ) : ℚ) ≤ x / 2 ^ ulpExp p emin x := by
      rw [Int.cast_zero]; exact div_nonneg h0 (le_of_lt hq)
    have h2 : (0 : ℚ) ≤ (roundNE (x / 2 ^ ulpExp p emin x) : ℚ) := by
      exact_mod_cast le_roundNE _ 0 h1
    exact le_trans (neg_nonpos.mpr hB0) (mul_nonneg h2 (le_of_lt hq))
  · have habs : |x| = -x := abs_of_neg h0
    have hj : ulpExp p emin x ≤ k :=
      ulpExp_le p emin k x hk (ne_of_lt h0)
        (by rw [habs]; exact lt_of_le_of_lt (by linarith) hB)
    have e := two_zpow_sub k (ulpExp p emin x) hj
    have e2 : ((2 : ℚ) ^ (k - ulpExp p emin x).toNat) * 2 ^ ulpExp p emin x = 2 ^ k := by
      rw [e]; push_cast; rfl
    have h1 : ((-(m * (2 : ℤ) ^ (k - ulpExp p emin x).toNat) : ℤ) : ℚ)
        ≤ x / 2 ^ ulpExp p emin x := by
      rw [le_div_iff₀ hq]
      push_cast
      rw [neg_mul, mul_assoc, e2]
      exact hx
    have h2 := le_roundNE _ _ h1
    have h3 : ((-(m * (2 : ℤ) ^ (k - ulpExp p emin x).toNat) : ℤ) : ℚ)
        ≤ (roundNE (x / 2 ^ ulpExp p emin x) : ℚ) := by exact_mod_cast h2
    calc -((m : ℚ) * 2 ^ k)
        = ((-(m * (2 : ℤ) ^ (k - ulpExp p emin x).toNat) : ℤ) : ℚ)
            * 2 ^ ulpExp p emin x := by
          push_cast
          rw [neg_mul, mul_assoc, e2]
      _ ≤ (roundNE (x / 2 ^ ulpExp p emin x) : ℚ) * 2 ^ ulpExp p emin x :=
          mul_le_mul_of_nonneg_right h3 (le_of_lt hq)

theorem f32_le_25 (x : ℚ) (h : x ≤ 25) : f32 x ≤ 25 := by
  have := roundTo_le 24 (-149) 25 0 (by norm_num) (by norm_num) (by norm_num) x
    (by norm_num; exact h)
  simpa [f32] using this

theorem neg_25_le_f32 (x : ℚ) (h : -25 ≤ x) : -25 ≤ f32 x := by
  have := le_roundTo 24 (-149) 25 0 (by norm_num) (by norm_num) (by norm_num) x
    (by norm_num; exact h)
  simpa [f32] using this

theorem f64_le_25 (x : ℚ) (h : x ≤ 25) : f64 x ≤ 25 := by
  have := roundTo_le 53 (-1074) 25 0 (by norm_num) (by norm_num) (by norm_num) x
    (by norm_num; exact h)
  simpa [f64] using this

theorem neg_25_le_f64 (x : ℚ) (h : -25 ≤ x) : -25 ≤ f64 x := by
  have := le_roundTo 53 (-1074) 25 0 (by norm_num) (by norm_num) (by norm_num) x
    (by norm_num; exact h)
  simpa [f64] using this

/-- Evaluation of a rounding at a positive value: with `2 ^ e ≤ x < 2 ^ (e + 1)` the unit in
the last place is `2 ^ k`, `k = max (e - (p - 1)) emin`, and the result is the integer
nearest to `x / 2 ^ k` times `2 ^ k`. -/
theorem roundTo_eval (p : Nat) (emin : ℤ) (x : ℚ) (e k n : ℤ) (hx0 : 0 < x)
    (hx1 : (2 : ℚ) ^ e ≤ x) (hx2 : x < 2 ^ (e + 1)) (hk : max (e - ((p : ℤ) - 1)) emin = k)
    (hn1 : (n : ℚ) - 1 / 2 < x / 2 ^ k) (hn2 : x / 2 ^ k < n + 1 / 2) :
    roundTo p emin x = n * 2 ^ k := by
  have habs : |x| = x := abs_of_pos hx0
  have h1 : Int.log 2 x < e + 1 :=
    (@Int.lt_zpow_iff_log_lt ℚ _ _ 2 (by norm_num) (e + 1) x hx0).mp (by exact_mod_cast hx2)
  have h2 : e ≤ Int.log 2 x :=
    (@Int.zpow_le_iff_le_log ℚ _ _ 2 (by norm_num) e x hx0).mp (by exact_mod_cast hx1)
  have hlog : Int.log 2 x = e := by omega
  have hu : ulpExp p emin x = k := by
    unfold ulpExp
    rw [habs, hlog, hk]
  unfold roundTo
  rw [hu, roundNE_eq _ n hn1 hn2]

theorem TRANS_AMT64_eq : TRANS_AMT64 = 3602879701896397 / 18014398509481984 := by
  unfold TRANS_AMT64 f64
  rw [roundTo_eval 53 (-1074) 0.2 (-3) (-55) 7205759403792794 (by norm_num) (by norm_num)
    (by norm_num) (by norm_num) (by norm_num) (by norm_num)]
  norm_num

theorem TRANS_AMT64_pos : 0 < TRANS_AMT64 := by
  rw [TRANS_AMT64_eq]; norm_num

/-- The rounding error is at most half a unit in the last place. -/
theorem roundTo_error (p : Nat) (emin k : ℤ) (hk : emin ≤ k) (x : ℚ)
    (hx : |x| < 2 ^ (k + (p : ℤ))) : |roundTo p emin x - x| ≤ 2 ^ k / 2 := by
  have hk0 : (0 : ℚ) ≤ 2 ^ k / 2 := by
    have := two_zpow_pos k; linarith
  rcases eq_or_ne x 0 with h0 | h0
  · rw [h0, roundTo_zero]; simpa using hk0
  · have hj := ulpExp_le p emin k x hk h0 hx
    have hq := two_zpow_pos (ulpExp p emin x)
    have hle : (2 : ℚ) ^ ulpExp p emin x ≤ 2 ^ k :=
      zpow_le_zpow_right₀ (by norm_num) hj
    have e : roundTo p emin x - x
        = ((roundNE (x / 2 ^ ulpExp p emin x) : ℚ) - x / 2 ^ ulpExp p emin x)
            * 2 ^ ulpExp p emin x := by
      unfold roundTo
      field_simp
    rw [e, abs_mul, abs_of_pos hq]
    have h1 := roundNE_sub_le (x / 2 ^ ulpExp p emin x)
    calc |(roundNE (x / 2 ^ ulpExp p emin x) : ℚ) - x / 2 ^ ulpExp p emin x|
          * 2 ^ ulpExp p emin x
        ≤ 1 / 2 * 2 ^ ulpExp p emin x := mul_le_mul_of_nonneg_right h1 (le_of_lt hq)
      _ ≤ 1 / 2 * 2 ^ k := mul_le_mul_of_nonneg_left hle (by norm_num)
      _ = 2 ^ k / 2 := by ring

/-- A guarded or unguarded store `f32 (f64 w)` differs from `w` by less than `2 ^ (-19)`
when `|w| ≤ 26`. -/
theorem store_error (w : ℚ) (hw : |w| ≤ 26) : |f32 (f64 w) - w| ≤ 3 / 2 ^ 21 := by
  have h64 : |f64 w - w| ≤ 2 ^ (-48 : ℤ) / 2 := by
    have := roundTo_error 53 (-1074) (-48) (by norm_num) w
      (lt_of_le_of_lt hw (by norm_num))
    simpa [f64] using this
  have hb : |f64 w| < 32 := by
    have h1 : |f64 w| ≤ |f64 w - w| + |w| := by
      have := abs_add (f64 w - w) w
      simpa using this
    have h2 : (2 : ℚ) ^ (-48 : ℤ) / 2 < 1 := by norm_num
    linarith
  have h32 : |f32 (f64 w) - f64 w| ≤ 2 ^ (-19 : ℤ) / 2 := by
    have := roundTo_error 24 (-149) (-19) (by norm_num) (f64 w)
      (lt_of_lt_of_le hb (by norm_num))
    simpa [f32] using this
  have h3 : |f32 (f64 w) - w| ≤ |f32 (f64 w) - f64 w| + |f64 w - w| := by
    have := abs_add (f32 (f64 w) - f64 w) (f64 w - w)
    simpa using this
  have h4 : (2 : ℚ) ^ (-19 : ℤ) / 2 + 2 ^ (-48 : ℤ) / 2 ≤ 3 / 2 ^ 21 := by norm_num
  linarith

theorem TRANS_AMT64_near : |TRANS_AMT64 - 1 / 5| ≤ 1 / 2 ^ 56 := by
  rw [TRANS_AMT64_eq, abs_le]
  constructor <;> norm_num

theorem move_error (v : ℚ) (hv : |v| ≤ 25) :
    |f32 (f64 (v + TRANS_AMT64)) - (v + TRANS_AMT)| ≤ 1 / 2 ^ 19 ∧
    |f32 (f64 (v - TRANS_AMT64)) - (v - TRANS_AMT)| ≤ 1 / 2 ^ 19 := by
  have ht := TRANS_AMT64_near
  have ht2 := abs_le.mp ht
  have hv2 := abs_le.mp hv
  have e : (TRANS_AMT : ℚ) = 1 / 5 := by norm_num [TRANS_AMT]
  rw [e]
  have hw1 : |v + TRANS_AMT64| ≤ 26 := by
    rw [abs_le]; constructor <;> linarith [ht2.1, ht2.2, hv2.1, hv2.2]
  have hw2 : |v - TRANS_AMT64| ≤ 26 := by
    rw [abs_le]; constructor <;> linarith [ht2.1, ht2.2, hv2.1, hv2.2]
  have s1 := abs_le.mp (store_error _ hw1)
  have s2 := abs_le.mp (store_error _ hw2)
  constructor
  · rw [abs_le]; constructor <;> linarith [ht2.1, ht2.2, s1.1, s1.2]
  · rw [abs_le]; constructor <;> linarith [ht2.1, ht2.2, s2.1, s2.2]

theorem step_from_zero :
    f64 (0 + TRANS_AMT64) = TRANS_AMT64 ∧ f32 TRANS_AMT64 = 13421773 / 67108864 := by
  rw [zero_add, TRANS_AMT64_eq]
  constructor
  · unfold f64
    rw [roundTo_eval 53 (-1074) _ (-3) (-55) 7205759403792794 (by norm_num) (by norm_num)
      (by norm_num) (by norm_num) (by norm_num) (by norm_num)]
    norm_num
  · unfold f32
    rw [roundTo_eval 24 (-149) _ (-3) (-26) 13421773 (by norm_num) (by norm_num)
      (by norm_num) (by norm_num) (by norm_num) (by norm_num)]
    norm_num

theorem step_from_pow22 :
    f64 (4194304 + TRANS_AMT64) = 4503599842118861 / 1073741824 ∧
    f32 (4503599842118861 / 1073741824) = 4194304 := by
  constructor
  · rw [TRANS_AMT64_eq]
    unfold f64
    rw [roundTo_eval 53 (-1074) _ 22 (-30) 4503599842118861 (by norm_num) (by norm_num)
      (by norm_num) (by norm_num) (by norm_num) (by norm_num)]
    norm_num
  · unfold f32
    rw [roundTo_eval 24 (-149) _ 22 (-1) 8388608 (by norm_num) (by norm_num)
      (by norm_num) (by norm_num) (by norm_num) (by norm_num)]
    norm_num

/-- Above `2 ^ 22` the spacing of `GLfloat` is `1 / 2`: a value below `2 ^ 22 + 1 / 4` rounds
to at most `2 ^ 22`. -/
theorem f32_le_pow22 (y : ℚ) (h : y < 4194304 + 1 / 4) : f32 y ≤ 4194304 := by
  rcases le_or_lt y 4194304 with h1 | h1
  · have := roundTo_le 24 (-149) 1 22 (by norm_num) (by norm_num) (by norm_num) y
      (by norm_num; exact h1)
    have e : f32 y = roundTo 24 (-149) y := by unfold f32; rfl
    rw [e]
    norm_num at this
    exact this
  · have hy0 : 0 < y := by linarith
    have hlog : Int.log 2 y = 22 := by
      have a1 : Int.log 2 y < 23 :=
        (@Int.lt_zpow_iff_log_lt ℚ _ _ 2 (by norm_num) 23 y hy0).mp (by norm_num; linarith)
      have a2 : 22 ≤ Int.log 2 y :=
        (@Int.zpow_le_iff_le_log ℚ _ _ 2 (by norm_num) 22 y hy0).mp (by norm_num; linarith)
      omega
    have hu : ulpExp 24 (-149) y = -1 := by
      unfold ulpExp
      rw [abs_of_pos hy0, hlog]
      norm_num
    have e : f32 y = roundTo 24 (-149) y := by unfold f32; rfl
    rw [e]
    unfold roundTo
    rw [hu]
    have hr : roundNE (y / 2 ^ (-1 : ℤ)) ≤ 8388608 :=
      roundNE_le_of_lt_half _ _ (by norm_num; linarith)
    have hr2 : (roundNE (y / 2 ^ (-1 : ℤ)) : ℚ) ≤ 8388608 := by exact_mod_cast hr
    norm_num at hr2 ⊢
    linarith

/-- The mirror image of `f32_le_pow22`. -/
theorem neg_pow22_le_f32 (y : ℚ) (h : -(4194304 + 1 / 4) < y) : -4194304 ≤ f32 y := by
  rcases le_or_lt (-4194304) y with h1 | h1
  · have := le_roundTo 24 (-149) 1 22 (by norm_num) (by norm_num) (by norm_num) y
      (by norm_num; exact h1)
    have e : f32 y = roundTo 24 (-149) y := by unfold f32; rfl
    rw [e]
    norm_num at this
    exact this
  · have hy0 : y < 0 := by linarith
    have hpos : 0 < |y| := abs_pos.mpr (ne_of_lt hy0)
    have habs : |y| = -y := abs_of_neg hy0
    have hlog : Int.log 2 |y| = 22 := by
      have a1 : Int.log 2 |y| < 23 :=
        (@Int.lt_zpow_iff_log_lt ℚ _ _ 2 (by norm_num) 23 |y| hpos).mp
          (by rw [habs]; norm_num; linarith)
      have a2 : 22 ≤ Int.log 2 |y| :=
        (@Int.zpow_le_iff_le_log ℚ _ _ 2 (by norm_num) 22 |y| hpos).mp
          (by rw [habs]; norm_num; linarith)
      omega
    have hu : ulpExp 24 (-149) y = -1 := by
      unfold ulpExp
      rw [hlog]
      norm_num
    have e : f32 y = roundTo 24 (-149) y := by unfold f32; rfl
    rw [e]
    unfold roundTo
    rw [hu]
    have hr : (-8388608 : ℤ) ≤ roundNE (y / 2 ^ (-1 : ℤ)) :=
      le_roundNE_of_gt_half _ _ (by norm_num; linarith)
    have hr2 : (-8388608 : ℚ) ≤ (roundNE (y / 2 ^ (-1 : ℤ)) : ℚ) := by exact_mod_cast hr
    norm_num at hr2 ⊢
    linarith

/-! ## Camera bounds in binary32 -/

/-- A guarded store of `f32 (f64 v)` keeps a coordinate in `[-25, 25]` when the guard holds
on one side and the unrounded value is on the right side of the other bound. -/
theorem store_in_closed_bounds (v : ℚ) (h : (f64 v < 25 ∧ -25 ≤ v) ∨ (-25 < f64 v ∧ v ≤ 25)) :
    -25 ≤ f32 (f64 v) ∧ f32 (f64 v) ≤ 25 := by
  rcases h with ⟨h1, h2⟩ | ⟨h1, h2⟩
  · exact ⟨neg_25_le_f32 _ (neg_25_le_f64 _ h2), f32_le_25 _ (le_of_lt h1)⟩
  · exact ⟨neg_25_le_f32 _ (le_of_lt h1), f32_le_25 _ (f64_le_25 _ h2)⟩

theorem keyboard32_inClosedBounds (k : Char) (c c1 : Camera ℚ) (h : c.inClosedBounds)
    (hk : keyboard32 k c = some c1) : c1.inClosedBounds := by
  have hT := TRANS_AMT64_pos
  unfold Camera.inClosedBounds MAX_DEPTH at h ⊢
  obtain ⟨⟨hx1, hx2⟩, ⟨hy1, hy2⟩, ⟨hz1, hz2⟩⟩ := h
  unfold keyboard32 MAX_DEPTH at hk
  split_ifs at hk with g1 g2 g3 g4 <;>
    simp only [Option.some.injEq] at hk <;> subst hk <;>
    first
      | exact ⟨⟨hx1, hx2⟩, ⟨hy1, hy2⟩, ⟨hz1, hz2⟩⟩
      | exact ⟨⟨hx1, hx2⟩, store_in_closed_bounds _ (Or.inr ⟨by assumption, by linarith⟩),
          ⟨hz1, hz2⟩⟩
      | exact ⟨⟨hx1, hx2⟩, store_in_closed_bounds _ (Or.inl ⟨by assumption, by linarith⟩),
          ⟨hz1, hz2⟩⟩

theorem arrowKeys32_inClosedBounds (k : Int) (c : Camera ℚ) (h : c.inClosedBounds) :
    (arrowKeys32 k c).inClosedBounds := by
  have hT := TRANS_AMT64_pos
  unfold Camera.inClosedBounds MAX_DEPTH at h ⊢
  obtain ⟨⟨hx1, hx2⟩, ⟨hy1, hy2⟩, ⟨hz1, hz2⟩⟩ := h
  unfold arrowKeys32 MAX_DEPTH
  split_ifs <;>
    first
      | exact ⟨⟨hx1, hx2⟩, ⟨hy1, hy2⟩, ⟨hz1, hz2⟩⟩
      | exact ⟨store_in_closed_bounds _ (Or.inl ⟨by assumption, by linarith⟩), ⟨hy1, hy2⟩,
          ⟨hz1, hz2⟩⟩
      | exact ⟨store_in_closed_bounds _ (Or.inr ⟨by assumption, by linarith⟩), ⟨hy1, hy2⟩,
          ⟨hz1, hz2⟩⟩
      | exact ⟨⟨hx1, hx2⟩, ⟨hy1, hy2⟩,
          store_in_closed_bounds _ (Or.inl ⟨by assumption, by linarith⟩)⟩
      | exact ⟨⟨hx1, hx2⟩, ⟨hy1, hy2⟩,
          store_in_closed_bounds _ (Or.inr ⟨by assumption, by linarith⟩)⟩

theorem initCamera_inClosedBounds : (initCamera : Camera ℚ).inClosedBounds := by
  norm_num [Camera.inClosedBounds, initCamera, MAX_DEPTH]

theorem keyboard32_moves (c : Camera ℚ) :
    (¬ (f64 (c.totalY - TRANS_AMT64) > -MAX_DEPTH) → keyboard32 'x' c = some c) ∧
    (f64 (c.totalY - TRANS_AMT64) > -MAX_DEPTH →
      keyboard32 'x' c = some { c with totalY := f32 (f64 (c.totalY - TRANS_AMT64)) }) ∧
    (¬ (f64 (c.totalY + TRANS_AMT64) < MAX_DEPTH) → keyboard32 'c' c = some c) ∧
    (f64 (c.totalY + TRANS_AMT64) < MAX_DEPTH →
      keyboard32 'c' c = some { c with totalY := f32 (f64 (c.totalY + TRANS_AMT64)) }) := by
  refine ⟨fun h => ?_, fun h => ?_, fun h => ?_, fun h => ?_⟩
  · simp only [keyboard32, if_true, if_neg h]
  · simp only [keyboard32, if_true, if_pos h]
  · have hne : ¬ ('c' = 'x') := by decide
    simp only [keyboard32, if_neg hne, if_true, if_neg h]
  · have hne : ¬ ('c' = 'x') := by decide
    simp only [keyboard32, if_neg hne, if_true, if_pos h]

theorem arrowKeys32_moves (c : Camera ℚ) :
    (¬ (f64 (c.totalX + TRANS_AMT64) < MAX_DEPTH) → arrowKeys32 GLUT_KEY_LEFT c = c) ∧
    (f64 (c.totalX + TRANS_AMT64) < MAX_DEPTH →
      arrowKeys32 GLUT_KEY_LEFT c
        = { c with totalX := f32 (f64 (c.totalX + TRANS_AMT64)),
                   rotX := f32 (f64 (c.totalX + TRANS_AMT64)) }) ∧
    (¬ (f64 (c.totalX - TRANS_AMT64) > -MAX_DEPTH) → arrowKeys32 GLUT_KEY_RIGHT c = c) ∧
    (f64 (c.totalX - TRANS_AMT64) > -MAX_DEPTH →
      arrowKeys32 GLUT_KEY_RIGHT c
        = { c with totalX := f32 (f64 (c.totalX - TRANS_AMT64)),
                   rotX := f32 (f64 (c.totalX - TRANS_AMT64)) }) ∧
    (¬ (f64 (c.totalZ - TRANS_AMT64) > -MAX_DEPTH) → arrowKeys32 GLUT_KEY_DOWN c = c) ∧
    (f64 (c.totalZ - TRANS_AMT64) > -MAX_DEPTH →
      arrowKeys32 GLUT_KEY_DOWN c = { c with totalZ := f32 (f64 (c.totalZ - TRANS_AMT64)) }) ∧
    (¬ (f64 (c.totalZ + TRANS_AMT64) < MAX_DEPTH) → arrowKeys32 GLUT_KEY_UP c = c) ∧
    (f64 (c.totalZ + TRANS_AMT64) < MAX_DEPTH →
      arrowKeys32 GLUT_KEY_UP c = { c with totalZ := f32 (f64 (c.totalZ + TRANS_AMT64)) }) := by
  have r_l : ¬ (GLUT_KEY_RIGHT = GLUT_KEY_LEFT) := by decide
  have d_l : ¬ (GLUT_KEY_DOWN = GLUT_KEY_LEFT) := by decide
  have d_r : ¬ (GLUT_KEY_DOWN = GLUT_KEY_RIGHT) := by decide
  have u_l : ¬ (GLUT_KEY_UP = GLUT_KEY_LEFT) := by decide
  have u_r : ¬ (GLUT_KEY_UP = GLUT_KEY_RIGHT) := by decide
  have u_d : ¬ (GLUT_KEY_UP = GLUT_KEY_DOWN) := by decide
  refine ⟨fun h => ?_, fun h => ?_, fun h => ?_, fun h => ?_, fun h => ?_, fun h => ?_,
    fun h => ?_, fun h => ?_⟩
  · simp only [arrowKeys32, if_true, if_neg h]
  · simp only [arrowKeys32, if_true, if_pos h]
  · simp only [arrowKeys32, if_neg r_l, if_true, if_neg h]
  · simp only [arrowKeys32, if_neg r_l, if_true, if_pos h]
  · simp only [arrowKeys32, if_neg d_l, if_neg d_r, if_true, if_neg h]
  · simp only [arrowKeys32, if_neg d_l, if_neg d_r, if_true, if_pos h]
  · simp only [arrowKeys32, if_neg u_l, if_neg u_r, if_neg u_d, if_true, if_neg h]
  · simp only [arrowKeys32, if_neg u_l, if_neg u_r, if_neg u_d, if_true, if_pos h]

theorem unbound_keys32 (c : Camera ℚ) :
    (∀ k : Char, k ∉ ['x', 'c', 'r', 't', 's', 'd', 'p', ESC] → keyboard32 k c = some c) ∧
    (∀ k : Int, k ∉ [GLUT_KEY_LEFT, GLUT_KEY_RIGHT, GLUT_KEY_DOWN, GLUT_KEY_UP] →
      arrowKeys32 k c = c) := by
  constructor
  · intro k hk
    simp only [List.mem_cons, List.mem_singleton, List.not_mem_nil, or_false, not_or] at hk
    obtain ⟨h1, h2, h3, h4, h5, h6, h7, h8⟩ := hk
    simp only [keyboard32, if_neg h1, if_neg h2, if_neg h3, if_neg h4, if_neg h5, if_neg h6,
      if_neg h7, if_neg h8]
  · intro k hk
    simp only [List.mem_cons, List.mem_singleton, List.not_mem_nil, or_false, not_or] at hk
    obtain ⟨h1, h2, h3, h4⟩ := hk
    simp only [arrowKeys32, if_neg h1, if_neg h2, if_neg h3, if_neg h4]

/-- C14 (refuted as stated): at the initial camera the `c` key is accepted and stores in
`totalY` the `GLfloat` `0.2f = 13421773 / 2^26`; the component has not changed by exactly
`TRANS_AMT`, neither the decimal 0.2 nor the `double` the literal denotes. -/
theorem accepted_move_is_not_exact :
    f64 ((initCamera : Camera ℚ).totalY + TRANS_AMT64) < MAX_DEPTH ∧
    keyboard32 'c' (initCamera : Camera ℚ)
      = some { (initCamera : Camera ℚ) with totalY := 13421773 / 67108864 } ∧
    (13421773 / 67108864 : ℚ) - (initCamera : Camera ℚ).totalY ≠ TRANS_AMT ∧
    (13421773 / 67108864 : ℚ) - (initCamera : Camera ℚ).totalY ≠ TRANS_AMT64 := by
  have e0 : (initCamera : Camera ℚ).totalY = 0 := rfl
  have hg : f64 ((initCamera : Camera ℚ).totalY + TRANS_AMT64) < MAX_DEPTH := by
    rw [e0, step_from_zero.1, TRANS_AMT64_eq]; norm_num [MAX_DEPTH]
  refine ⟨hg, ?_, ?_, ?_⟩
  · rw [((keyboard32_moves (initCamera : Camera ℚ)).2.2.2) hg, e0, step_from_zero.1,
      step_from_zero.2]
  · rw [e0]; norm_num [TRANS_AMT]
  · rw [e0, TRANS_AMT64_eq]; norm_num

/-- C14 (amended): in the arithmetic of the C evaluation, for every camera state a movement
key (`x`, `c` in `keyboard()`; left, right, up, down in `arrowKeys()`) whose guard fails, and
every key that is not bound, leaves the whole camera state as it was; an accepted move
leaves every field other than the moved translation component (and `rotX`, set to the new
`totalX`, for the strafe keys) unchanged and stores in that component the `GLfloat` rounding
of the component plus or minus `TRANS_AMT`; for a component in `[-MAX_DEPTH, MAX_DEPTH]`
the stored value differs from the component plus or minus 0.2 by at most `2^-19`. -/
theorem rejected_keys_noop_accepted_rounded (c : Camera ℚ) :
    ((¬ (f64 (c.totalY - TRANS_AMT64) > -MAX_DEPTH) → keyboard32 'x' c = some c) ∧
     (f64 (c.totalY - TRANS_AMT64) > -MAX_DEPTH →
        keyboard32 'x' c = some { c with totalY := f32 (f64 (c.totalY - TRANS_AMT64)) }) ∧
     (¬ (f64 (c.totalY + TRANS_AMT64) < MAX_DEPTH) → keyboard32 'c' c = some c) ∧
     (f64 (c.totalY + TRANS_AMT64) < MAX_DEPTH →
        keyboard32 'c' c = some { c with totalY := f32 (f64 (c.totalY + TRANS_AMT64)) })) ∧
    ((¬ (f64 (c.totalX + TRANS_AMT64) < MAX_DEPTH) → arrowKeys32 GLUT_KEY_LEFT c = c) ∧
     (f64 (c.totalX + TRANS_AMT64) < MAX_DEPTH →
        arrowKeys32 GLUT_KEY_LEFT c
          = { c with totalX := f32 (f64 (c.totalX + TRANS_AMT64)),
                     rotX := f32 (f64 (c.totalX + TRANS_AMT64)) }) ∧
     (¬ (f64 (c.totalX - TRANS_AMT64) > -MAX_DEPTH) → arrowKeys32 GLUT_KEY_RIGHT c = c) ∧
     (f64 (c.totalX - TRANS_AMT64) > -MAX_DEPTH →
        arrowKeys32 GLUT_KEY_RIGHT c
          = { c with totalX := f32 (f64 (c.totalX - TRANS_AMT64)),
                     rotX := f32 (f64 (c.totalX - TRANS_AMT64)) }) ∧
     (¬ (f64 (c.totalZ - TRANS_AMT64) > -MAX_DEPTH) → arrowKeys32 GLUT_KEY_DOWN c = c) ∧
     (f64 (c.totalZ - TRANS_AMT64) > -MAX_DEPTH →
        arrowKeys32 GLUT_KEY_DOWN c
          = { c with totalZ := f32 (f64 (c.totalZ - TRANS_AMT64)) }) ∧
     (¬ (f64 (c.totalZ + TRANS_AMT64) < MAX_DEPTH) → arrowKeys32 GLUT_KEY_UP c = c) ∧
     (f64 (c.totalZ + TRANS_AMT64) < MAX_DEPTH →
        arrowKeys32 GLUT_KEY_UP c
          = { c with totalZ := f32 (f64 (c.totalZ + TRANS_AMT64)) })) ∧
    ((∀ k : Char, k ∉ ['x', 'c', 'r', 't', 's', 'd', 'p', ESC] → keyboard32 k c = some c) ∧
     (∀ k : Int, k ∉ [GLUT_KEY_LEFT, GLUT_KEY_RIGHT, GLUT_KEY_DOWN, GLUT_KEY_UP] →
        arrowKeys32 k c = c)) ∧
    (∀ v : ℚ, |v| ≤ MAX_DEPTH →
      |f32 (f64 (v + TRANS_AMT64)) - (v + TRANS_AMT)| ≤ 1 / 2 ^ 19 ∧
      |f32 (f64 (v - TRANS_AMT64)) - (v - TRANS_AMT)| ≤ 1 / 2 ^ 19) :=
  ⟨keyboard32_moves c, arrowKeys32_moves c, unbound_keys32 c,
    fun v hv => move_error v (by simpa [MAX_DEPTH] using hv)⟩

theorem step_from_24_9 :
    f64 (13054771 / 524288 + TRANS_AMT64) = 7065021808063283 / 281474976710656 := by
  rw [TRANS_AMT64_eq]
  unfold f64
  rw [roundTo_eval 53 (-1074) _ 4 (-48) 7065021808063283 (by norm_num) (by norm_num)
    (by norm_num) (by norm_num) (by norm_num) (by norm_num)]
  norm_num

/-- C14 (amended) at `totalY = 24.9f = 13054771 / 2^19`, where the `c` key (up) is rejected:
the guard value is `25.0999996 ≥ 25`. -/
theorem rejected_keys_noop_accepted_rounded_witness :
    ¬ (f64 (({ initCamera with totalY := 13054771 / 524288 } : Camera ℚ).totalY + TRANS_AMT64)
        < MAX_DEPTH) ∧
    keyboard32 'c' ({ initCamera with totalY := 13054771 / 524288 } : Camera ℚ)
      = some ({ initCamera with totalY := 13054771 / 524288 } : Camera ℚ) :=
  have h : ¬ (f64 (({ initCamera with totalY := 13054771 / 524288 } : Camera ℚ).totalY
      + TRANS_AMT64) < MAX_DEPTH) := by
    show ¬ (f64 (13054771 / 524288 + TRANS_AMT64) < MAX_DEPTH)
    rw [step_from_24_9]; norm_num [MAX_DEPTH]
  ⟨h, (rejected_keys_noop_accepted_rounded _).1.2.2.1 h⟩

/-! ## Yaw and tilt in binary32 -/

theorem yaw_step_bounds (r : ℚ) (h : -4194304 ≤ r ∧ r ≤ 4194304) :
    (-4194304 ≤ f32 (f64 (r + TRANS_AMT64)) ∧ f32 (f64 (r + TRANS_AMT64)) ≤ 4194304) ∧
    (-4194304 ≤ f32 (f64 (r - TRANS_AMT64)) ∧ f32 (f64 (r - TRANS_AMT64)) ≤ 4194304) := by
  have ht := TRANS_AMT64_pos
  have ht2 : TRANS_AMT64 ≤ 7 / 32 := by rw [TRANS_AMT64_eq]; norm_num
  have e64 : ∀ x, f64 x = roundTo 53 (-1074) x := fun x => by unfold f64; rfl
  have up : ∀ x : ℚ, x ≤ 4194304 + 7 / 32 → f64 x ≤ 4194304 + 7 / 32 := by
    intro x hx
    have := roundTo_le 53 (-1074) 134217735 (-5) (by norm_num) (by norm_num) (by norm_num) x
      (by norm_num; linarith)
    rw [e64]; norm_num at this ⊢; linarith
  have dn : ∀ x : ℚ, -(4194304 + 7 / 32) ≤ x → -(4194304 + 7 / 32) ≤ f64 x := by
    intro x hx
    have := le_roundTo 53 (-1074) 134217735 (-5) (by norm_num) (by norm_num) (by norm_num) x
      (by norm_num; linarith)
    rw [e64]; norm_num at this ⊢; linarith
  refine ⟨⟨?_, ?_⟩, ⟨?_, ?_⟩⟩
  · exact neg_pow22_le_f32 _ (by linarith [dn (r + TRANS_AMT64) (by linarith [h.1])])
  · exact f32_le_pow22 _ (by linarith [up (r + TRANS_AMT64) (by linarith [h.2])])
  · exact neg_pow22_le_f32 _ (by linarith [dn (r - TRANS_AMT64) (by linarith [h.1])])
  · exact f32_le_pow22 _ (by linarith [up (r - TRANS_AMT64) (by linarith [h.2])])

theorem yaw_tilt_keys32 (c : Camera ℚ) :
    keyboard32 'r' c = some { c with rotX := f32 (f64 (c.rotX - TRANS_AMT64)) } ∧
    keyboard32 't' c = some { c with rotX := f32 (f64 (c.rotX + TRANS_AMT64)) } ∧
    keyboard32 's' c = some { c with tilt := f32 (f64 (c.tilt - TRANS_AMT64)) } ∧
    keyboard32 'd' c = some { c with tilt := f32 (f64 (c.tilt + TRANS_AMT64)) } := by
  refine ⟨?_, ?_, ?_, ?_⟩ <;> simp [keyboard32]

theorem keyboard32_yawInRange (k : Char) (c c1 : Camera ℚ) (h : c.yawInRange)
    (hk : keyboard32 k c = some c1) : c1.yawInRange := by
  have hs := yaw_step_bounds c.rotX h
  unfold Camera.yawInRange at h ⊢
  unfold keyboard32 at hk
  split_ifs at hk <;> simp only [Option.some.injEq] at hk <;> subst hk <;>
    first
      | exact h
      | exact hs.1
      | exact hs.2

theorem arrowKeys32_yawInRange (k : Int) (c : Camera ℚ) (hb : c.inClosedBounds)
    (h : c.yawInRange) : (arrowKeys32 k c).yawInRange := by
  have hx := (arrowKeys32_inClosedBounds k c hb).1
  have hcase : (arrowKeys32 k c).rotX = c.rotX ∨
      (arrowKeys32 k c).rotX = (arrowKeys32 k c).totalX := by
    unfold arrowKeys32
    split_ifs <;> first | exact Or.inl rfl | exact Or.inr rfl
  unfold Camera.yawInRange at h ⊢
  unfold MAX_DEPTH at hx
  rcases hcase with e | e
  · rw [e]; exact h
  · rw [e]; constructor <;> linarith [hx.1, hx.2]

theorem handleKeys32_yawInRange (es : List KeyEvent) :
    ∀ c c1 : Camera ℚ, c.inClosedBounds → c.yawInRange → handleKeys32 es c = some c1 →
      c1.yawInRange := by
  induction es with
  | nil =>
    intro c c1 _ h hr
    simp only [handleKeys32, Option.some.injEq] at hr
    exact hr ▸ h
  | cons e es ih =>
    intro c c1 hb h hr
    cases e with
    | ascii k =>
      cases hk : keyboard32 k c with
      | none => simp [handleKeys32, handleKey32, hk] at hr
      | some c2 =>
        simp only [handleKeys32, handleKey32, hk] at hr
        exact ih c2 c1 (keyboard32_inClosedBounds k c c2 hb hk)
          (keyboard32_yawInRange k c c2 h hk) hr
    | special k =>
      simp only [handleKeys32, handleKey32] at hr
      exact ih _ c1 (arrowKeys32_inClosedBounds k c hb) (arrowKeys32_yawInRange k c hb h) hr

theorem initCamera_yawInRange : (initCamera : Camera ℚ).yawInRange := by
  norm_num [Camera.yawInRange, initCamera]

/-- C15 (refuted as stated): at `rotX = 2^22 = 4194304` the `t` key leaves the camera
unchanged (`4194304 + 0.2` rounds back to the `GLfloat` 4194304), so it does not change
`rotX` by `TRANS_AMT`; and the bound `B = 2^22` is exceeded by no key sequence from the
initial camera. -/
theorem yaw_saturates_in_binary32 :
    keyboard32 't' ({ initCamera with rotX := 4194304 } : Camera ℚ)
      = some ({ initCamera with rotX := 4194304 } : Camera ℚ) ∧
    ¬ (∀ B : ℚ, ∃ es : List KeyEvent, ∃ c1 : Camera ℚ,
        handleKeys32 es (initCamera : Camera ℚ) = some c1 ∧ |c1.rotX| > B) := by
  constructor
  · rw [(yaw_tilt_keys32 _).2.1]
    show some ({ initCamera with rotX := f32 (f64 (4194304 + TRANS_AMT64)) } : Camera ℚ) = _
    rw [step_from_pow22.1, step_from_pow22.2]
  · intro h
    obtain ⟨es, c1, hr, hB⟩ := h 4194304
    have hy := handleKeys32_yawInRange es initCamera c1 initCamera_inClosedBounds
      initCamera_yawInRange hr
    have : |c1.rotX| ≤ 4194304 := abs_le.mpr hy
    linarith

/-- C15 (amended): yaw and tilt keys have no bound check and touch only their own field: in
the arithmetic of the C evaluation `r` / `t` store in `rotX` the `GLfloat` rounding of
`rotX - TRANS_AMT` / `rotX + TRANS_AMT` and `s` / `d` likewise in `tilt`, leaving `totalX`,
`totalY`, `totalZ`, `isTeapot` and the other field unchanged; for a value in `[-25, 25]` the
stored value differs from the value plus or minus 0.2 by at most `2^-19`.  The yaw is
bounded all the same: from a camera with translations in `[-MAX_DEPTH, MAX_DEPTH]` and
`|rotX| ≤ 2^22` no key sequence makes `|rotX|` exceed `2^22`, and at `rotX = 2^22` the `t`
key leaves the camera as it is.  Over exact arithmetic `r` followed by `t`, and `s` followed
by `d`, restore the original state. -/
theorem yaw_tilt_rounded_and_saturating {α : Type} [LinearOrderedField α] (c : Camera ℚ)
    (c2 : Camera α) :
    (keyboard32 'r' c = some { c with rotX := f32 (f64 (c.rotX - TRANS_AMT64)) } ∧
     keyboard32 't' c = some { c with rotX := f32 (f64 (c.rotX + TRANS_AMT64)) } ∧
     keyboard32 's' c = some { c with tilt := f32 (f64 (c.tilt - TRANS_AMT64)) } ∧
     keyboard32 'd' c = some { c with tilt := f32 (f64 (c.tilt + TRANS_AMT64)) }) ∧
    (∀ v : ℚ, |v| ≤ 25 →
      |f32 (f64 (v + TRANS_AMT64)) - (v + TRANS_AMT)| ≤ 1 / 2 ^ 19 ∧
      |f32 (f64 (v - TRANS_AMT64)) - (v - TRANS_AMT)| ≤ 1 / 2 ^ 19) ∧
    (c.inClosedBounds → c.yawInRange →
      ∀ es c1, handleKeys32 es c = some c1 → c1.yawInRange) ∧
    keyboard32 't' { c with rotX := 4194304 } = some { c with rotX := 4194304 } ∧
    (handleKeys [KeyEvent.ascii 'r', KeyEvent.ascii 't'] c2 = some c2 ∧
     handleKeys [KeyEvent.ascii 's', KeyEvent.ascii 'd'] c2 = some c2) := by
  refine ⟨yaw_tilt_keys32 c, fun v hv => move_error v hv,
    fun hb hy es c1 hr => handleKeys32_yawInRange es c c1 hb hy hr, ?_, ⟨?_, ?_⟩⟩
  · rw [(yaw_tilt_keys32 _).2.1]
    show some ({ c with rotX := f32 (f64 (4194304 + TRANS_AMT64)) } : Camera ℚ) = _
    rw [step_from_pow22.1, step_from_pow22.2]
  · simp [handleKeys, handleKey, keyboard]
  · simp [handleKeys, handleKey, keyboard]

/-- C15 (amended) at the initial camera for the keys `t`, left, `t`. -/
theorem yaw_tilt_rounded_and_saturating_witness :
    (initCamera : Camera ℚ).inClosedBounds ∧ (initCamera : Camera ℚ).yawInRange ∧
    (∀ c1, handleKeys32 [KeyEvent.ascii 't', KeyEvent.special GLUT_KEY_LEFT,
        KeyEvent.ascii 't'] (initCamera : Camera ℚ) = some c1 → c1.yawInRange) :=
  ⟨initCamera_inClosedBounds, initCamera_yawInRange,
   fun c1 hr => (yaw_tilt_rounded_and_saturating (initCamera : Camera ℚ)
      (initCamera : Camera ℚ)).2.2.1 initCamera_inClosedBounds initCamera_yawInRange _ c1 hr⟩

/-! ## Capacity -/

theorem store_ok {α : Type} (st : Scene α) (i : Nat) (p : planet α) (h : i < MAX_PLANETS) :
    st.store i p = Except.ok (st.set i p) := by
  simp [Scene.store, h]

theorem store_fault {α : Type} (st : Scene α) (i : Nat) (p : planet α)
    (h : MAX_PLANETS ≤ i) : st.store i p = Except.error (StoreFault.outOfBounds i) := by
  simp [Scene.store, not_lt.mpr h]

/-- Loop invariant of the body loop of `display()`: after `k` iterations every hosted body
below `k` whose host was created earlier is at its host's current position plus `dist`
times the cosine and sine of its `rotate` angle. -/
theorem forLoop_dispPlanet_pos {α : Type} [LinearOrderedField α] (cos sin : α → α)
    (st : Scene α) (k : Nat) :
    ∀ i, i < k → 0 ≤ (st.planetList i).hostNum → (st.planetList i).hostNum < (i : Int) →
      ((forLoop k (dispPlanet cos sin) st).planetList i).x
        = ((forLoop k (dispPlanet cos sin) st).planetList
            (st.planetList i).hostNum.toNat).x
          + (st.planetList i).dist * cos ((st.planetList i).rotate * (2.0 * PI) / 360) ∧
      ((forLoop k (dispPlanet cos sin) st).planetList i).z
        = ((forLoop k (dispPlanet cos sin) st).planetList
            (st.planetList i).hostNum.toNat).z
          + (st.planetList i).dist * sin ((st.planetList i).rotate * (2.0 * PI) / 360) := by
  induction k with
  | zero => intro i hi; exact absurd hi (Nat.not_lt_zero i)
  | succ k ih =>
    intro i hi h0 hlt
    have hh : (st.planetList i).hostNum.toNat < i := by omega
    rw [forLoop_succ]
    by_cases hik : i = k
    · subst hik
      have u := forLoop_dispPlanet_untouched cos sin st i i (le_refl i)
      obtain ⟨hx, hz⟩ := dispPlanet_self cos sin i (forLoop i (dispPlanet cos sin) st)
        (by rw [u]; exact h0)
      rw [u] at hx hz
      rw [hx, hz, dispPlanet_other cos sin i _ _ (by omega)]
      exact ⟨rfl, rfl⟩
    · rw [dispPlanet_other cos sin k i _ hik, dispPlanet_other cos sin k _ _ (by omega)]
      exact ih i (by omega) h0 hlt

/-- After a render pass of a scene whose body `i` is hosted by the earlier body `h`, body `i`
is placed on its orbit around the rendered position of `h`. -/
theorem display_placedOnOrbit (st : Scene ℝ) (i h : Nat) (d : ℝ) (hi : i < st.planIndex)
    (hh : h < i) (hhost : (st.planetList i).hostNum = (h : Int))
    (hd : (st.planetList i).dist = d) (hy : (st.planetList i).y = (st.planetList h).y) :
    (display Real.cos Real.sin st).placedOnOrbit Real.cos Real.sin i h d
      (st.planetList i).rotate := by
  have hp := display_placedEq Real.cos Real.sin st i
  have hph := display_placedEq Real.cos Real.sin st h
  have h0 : 0 ≤ (st.planetList i).hostNum := by rw [hhost]; omega
  have hlt : (st.planetList i).hostNum < (i : Int) := by rw [hhost]; omega
  have hn : (st.planetList i).hostNum.toNat = h := by rw [hhost]; simp
  obtain ⟨px, pz⟩ := forLoop_dispPlanet_pos Real.cos Real.sin st st.planIndex i hi h0 hlt
  rw [hn, hd] at px pz
  have px2 : ((display Real.cos Real.sin st).planetList i).x
      = ((display Real.cos Real.sin st).planetList h).x
        + d * Real.cos ((st.planetList i).rotate * (2.0 * PI) / 360) := px
  have pz2 : ((display Real.cos Real.sin st).planetList i).z
      = ((display Real.cos Real.sin st).planetList h).z
        + d * Real.sin ((st.planetList i).rotate * (2.0 * PI) / 360) := pz
  refine ⟨by rw [← hp.2.2.2.2.2.1]; exact hhost, by rw [← hp.2.2.2.2.2.2.2.1]; exact hd,
    hp.2.2.2.2.2.2.2.2.2.symm, px2, pz2, by rw [← hp.2.2.2.1, ← hph.2.2.2.1]; exact hy, ?_⟩
  rw [px2, pz2]
  have := Real.cos_sq_add_sin_sq ((st.planetList i).rotate * (2.0 * PI) / 360)
  linear_combination (d ^ 2) * this

/-- C6: for the hierarchy built by `generatePlanets`, after any number `n` of `spin()` ticks
(in particular every `n ≥ 1`) followed by one render pass, the four bodies are in use, the
root (body 0, `hostNum = -1`) is at its creation position `(0, 0, 0)`, and every hosted
body lies on its orbit circle around the position its host has after that same pass: body 1
around body 0 at radius 4.5, body 2 around body 1 at radius 2, body 3 around body 0 at
radius 8.5, each at the angle `rotate` the ticks have given it and in the plane
`y = y_host` (real arithmetic, real cosine and sine). -/
theorem orbit_circles_of_built_hierarchy (n : Nat) :
    (display Real.cos Real.sin (spinN n (builtScene : Scene ℝ))).planIndex = 4 ∧
    (((display Real.cos Real.sin (spinN n (builtScene : Scene ℝ))).planetList 0).hostNum = -1 ∧
     ((display Real.cos Real.sin (spinN n (builtScene : Scene ℝ))).planetList 0).x = 0 ∧
     ((display Real.cos Real.sin (spinN n (builtScene : Scene ℝ))).planetList 0).y = 0 ∧
     ((display Real.cos Real.sin (spinN n (builtScene : Scene ℝ))).planetList 0).z = 0) ∧
    (display Real.cos Real.sin (spinN n (builtScene : Scene ℝ))).placedOnOrbit
      Real.cos Real.sin 1 0 4.5 ((spinN n (builtScene : Scene ℝ)).planetList 1).rotate ∧
    (display Real.cos Real.sin (spinN n (builtScene : Scene ℝ))).placedOnOrbit
      Real.cos Real.sin 2 1 2 ((spinN n (builtScene : Scene ℝ)).planetList 2).rotate ∧
    (display Real.cos Real.sin (spinN n (builtScene : Scene ℝ))).placedOnOrbit
      Real.cos Real.sin 3 0 8.5 ((spinN n (builtScene : Scene ℝ)).planetList 3).rotate := by
  obtain ⟨a, ⟨b1, -, b3⟩, ⟨c1, -, c3⟩, ⟨d1, -, d3⟩⟩ := @spinN_built_links ℝ _ n
  have hpi : (spinN n (builtScene : Scene ℝ)).planIndex = 4 := spinN_planIndex n _
  have hy : ∀ i, i < 4 → ((spinN n (builtScene : Scene ℝ)).planetList i).y = 0 := by
    intro i hi
    rw [← (spinN_fixedEq n (builtScene : Scene ℝ) i).2.2.2.2.1]
    exact (builtScene_hosts i hi).2
  have f0 := spinN_fixedEq n (builtScene : Scene ℝ) 0
  rw [builtScene_body0] at f0
  have r0 := display_root Real.cos Real.sin 0 (spinN n (builtScene : Scene ℝ))
    (by rw [a]; decide)
  refine ⟨by rw [display_planIndex]; exact hpi, ⟨?_, ?_, ?_, ?_⟩, ?_, ?_, ?_⟩
  · rw [r0]; exact a
  · rw [r0, ← f0.2.2.2.1]; rfl
  · rw [r0]; exact hy 0 (by decide)
  · rw [r0, ← f0.2.2.2.2.2.1]; rfl
  · exact display_placedOnOrbit _ 1 0 4.5 (by rw [hpi]; decide) (by decide)
      (by rw [b1]; rfl) b3 (by rw [hy 1 (by decide), hy 0 (by decide)])
  · exact display_placedOnOrbit _ 2 1 2 (by rw [hpi]; decide) (by decide)
      (by rw [c1]; rfl) c3 (by rw [hy 2 (by decide), hy 1 (by decide)])
  · exact display_placedOnOrbit _ 3 0 8.5 (by rw [hpi]; decide) (by decide)
      (by rw [d1]; rfl) d3 (by rw [hy 3 (by decide), hy 0 (by decide)])

end Solarscape
